import Mathlib

/-!
# Verification of the firebreak capability-sandbox core

A shallow embedding, in Lean 4, of the parts of the `firebreak` code base
(python) that the specification's claims are about:

* `firebreak/types.py`   — capability profiles, mount parsing, canonical form
* `firebreak/profile.py` — profile fingerprinting (SHA-256 based)
* `firebreak/executor.py`— the guest executor (request handling, function
  reference resolution, dependency installation)
* `firebreak/pool.py`    — the per-profile VM worker pool (acquire / execute /
  release / maintenance / stop), modelled as a transition system
* `firebreak/runner.py`  — snapshot provisioning and its cache

Python dynamic values are modelled by the inductive `PyVal` (the msgpack data
model used on the wire: null, bool, int, str, list, dict with string keys).
Raised Python exceptions are modelled by `Except PyErr`; `PyErr` records the
exception type name and message (tracebacks are abstracted to a string field
and never inspected by any claim).  Interaction with the outside world
(module import tables, the sandboxed function call itself, the package
installer subprocess, hypervisor operations) is modelled by explicit
environment/oracle parameters, so every definition stays executable.
-/

/-- A raised Python exception: its type name, message and (abstracted)
traceback text. -/
structure PyErr where
  ty : String
  msg : String
  trace : String
deriving DecidableEq, Repr

/-- The msgpack-style dynamic value universe exchanged with the guest
executor (`raw=False` decoding: text strings, integers, booleans, null,
sequences, string-keyed mappings). -/
inductive PyVal where
  | null
  | bool (b : Bool)
  | int (n : Int)
  | str (s : String)
  | list (xs : List PyVal)
  | dict (xs : List (String × PyVal))

namespace PyVal

/-- Python type name of a value (as in `type(v).__name__`). -/
def typeName : PyVal → String
  | .null => "NoneType"
  | .bool _ => "bool"
  | .int _ => "int"
  | .str _ => "str"
  | .list _ => "list"
  | .dict _ => "dict"

/-- Python truthiness (`bool(v)`); total on every value. -/
def truthy : PyVal → Bool
  | .null => false
  | .bool b => b
  | .int n => n != 0
  | .str s => s != ""
  | .list xs => !xs.isEmpty
  | .dict xs => !xs.isEmpty

/-- Whether `iter(v)` succeeds: lists, strings and dicts are iterable,
`None`/bool/int are not. -/
def iterable : PyVal → Bool
  | .list _ => true
  | .str _ => true
  | .dict _ => true
  | _ => false

/-- Python iteration, as used by `tuple(v)` and `for x in v`: the elements of
a list, the one-character strings of a string, the keys of a dict; a
`TypeError` for anything else. -/
def iterate : PyVal → Except PyErr (List PyVal)
  | .list xs => .ok xs
  | .str s => .ok (s.data.map fun c => .str (String.mk [c]))
  | .dict xs => .ok (xs.map fun kv => .str kv.1)
  | v => .error ⟨"TypeError", typeName v ++ " object is not iterable", ""⟩

/-- Whether the value is a text string (`isinstance(v, str)`). -/
def isStr : PyVal → Bool
  | .str _ => true
  | _ => false

/-- A simplified `repr(v)` used only inside human-readable messages (string
quoting is elided; no claim inspects these renderings). -/
def reprLite : PyVal → String
  | .null => "None"
  | .bool b => if b then "True" else "False"
  | .int n => toString n
  | .str s => s
  | .list _ => "[...]"
  | .dict _ => "[...]"

end PyVal

/-- A Python dict image: an association list with string keys (keys are
unique in any dict produced by msgpack decoding). -/
abbrev Envelope := List (String × PyVal)

/-- `d.get(k, dflt)` on a dict. -/
def dictGetD (d : Envelope) (k : String) (dflt : PyVal) : PyVal :=
  (d.lookup k).getD dflt

/-- `d[k] = v` on a dict: replace in place if the key exists, append
otherwise. -/
def dictSet (d : Envelope) (k : String) (v : PyVal) : Envelope :=
  if (d.lookup k).isNone then d ++ [(k, v)]
  else d.map fun kv => if kv.1 = k then (k, v) else kv

/-- `s.split(sep, 1)` for a one-character separator, in the case where the
separator occurs: the text before the first occurrence and the text after
it.  `Option.none` when the separator does not occur. -/
def splitOnce (c : Char) : List Char → Option (List Char × List Char)
  | [] => Option.none
  | x :: xs =>
    if x = c then Option.some ([], xs)
    else (splitOnce c xs).map fun p => (x :: p.1, p.2)

/-- `s.rsplit(sep, 1)` for a one-character separator (used by the executor
with `":"`): splits at the LAST occurrence.  When the separator does not
occur the pair `(l, [])` is returned (the caller guards against this). -/
def rsplitOnce (c : Char) (l : List Char) : List Char × List Char :=
  match splitOnce c l.reverse with
  | Option.some p => (p.2.reverse, p.1.reverse)
  | Option.none => (l, [])

/-- Helper for `splitAll`: `acc` holds the current piece reversed. -/
def splitAllAux (c : Char) : List Char → List Char → List (List Char)
  | acc, [] => [acc.reverse]
  | acc, x :: xs =>
    if x = c then acc.reverse :: splitAllAux c [] xs
    else splitAllAux c (x :: acc) xs

/-- Python `s.split(sep)` for a one-character separator: every piece between
occurrences, so `""` yields `[""]` and `"a.b"` with `'.'` yields
`["a", "b"]`. -/
def splitAll (c : Char) (l : List Char) : List (List Char) :=
  splitAllAux c [] l

/-- Python string slicing `s[:n]` (by characters). -/
def pySlice (s : String) (n : Nat) : String :=
  String.mk (s.data.take n)

/-- Python `a or b` on strings: `a` when non-empty, else `b`. -/
def pyOrStr (a b : String) : String :=
  if a = "" then b else a

/-- Python `sep.join(parts)`. -/
def pyJoin (sep : String) : List String → String
  | [] => ""
  | [x] => x
  | x :: xs => x ++ sep ++ pyJoin sep xs

/-- Code-point comparison of character lists, as Python compares strings. -/
def charListLe : List Char → List Char → Bool
  | [], _ => true
  | _ :: _, [] => false
  | a :: as, b :: bs => if a < b then true else if b < a then false else charListLe as bs

/-- Python string `<=` (code-point lexicographic). -/
def pyStrLe (a b : String) : Bool := charListLe a.data b.data

/-- Insert into a sorted list at the stable position: before the first
element that is not below `x`. -/
def insertSorted (le : α → α → Bool) (x : α) : List α → List α
  | [] => [x]
  | y :: ys => if le x y then x :: y :: ys else y :: insertSorted le x ys

/-- Model of Python `sorted`: a stable sort by a total preorder has a unique
result, so stable insertion sort reproduces timsort exactly. -/
def pySorted (le : α → α → Bool) : List α → List α
  | [] => []
  | x :: xs => insertSorted le x (pySorted le xs)

/-! ## SHA-256 (model of `hashlib.sha256`, FIPS 180-4)

The fingerprint in `firebreak/profile.py` is
`hashlib.sha256(canonical.encode()).hexdigest()[:16]`.  We model the library
hash concretely so the whole fingerprint pipeline is executable: messages are
lists of byte values (`Nat < 256`), words are `Nat` reduced mod `2^32`. -/

namespace SHA256

/-- `2^32`, the word modulus. -/
def M32 : Nat := 4294967296

/-- Rotate a 32-bit word right by `n`. -/
def rotr (n x : Nat) : Nat :=
  ((x >>> n) ||| (x <<< (32 - n))) % M32

/-- Bitwise complement of a 32-bit word. -/
def not32 (x : Nat) : Nat := 4294967295 ^^^ x

def ch (x y z : Nat) : Nat := (x &&& y) ^^^ (not32 x &&& z)

def maj (x y z : Nat) : Nat := (x &&& y) ^^^ (x &&& z) ^^^ (y &&& z)

def bigSigma0 (x : Nat) : Nat := rotr 2 x ^^^ rotr 13 x ^^^ rotr 22 x

def bigSigma1 (x : Nat) : Nat := rotr 6 x ^^^ rotr 11 x ^^^ rotr 25 x

def smallSigma0 (x : Nat) : Nat := rotr 7 x ^^^ rotr 18 x ^^^ (x >>> 3)

def smallSigma1 (x : Nat) : Nat := rotr 17 x ^^^ rotr 19 x ^^^ (x >>> 10)

/-- The 64 round constants (FIPS 180-4 §4.2.2), written in decimal. -/
def K : Array Nat := #[
  1116352408, 1899447441, 3049323471, 3921009573, 961987163,
  1508970993, 2453635748, 2870763221, 3624381080, 310598401,
  607225278, 1426881987, 1925078388, 2162078206, 2614888103,
  3248222580, 3835390401, 4022224774, 264347078, 604807628,
  770255983, 1249150122, 1555081692, 1996064986, 2554220882,
  2821834349, 2952996808, 3210313671, 3336571891, 3584528711,
  113926993, 338241895, 666307205, 773529912, 1294757372,
  1396182291, 1695183700, 1986661051, 2177026350, 2456956037,
  2730485921, 2820302411, 3259730800, 3345764771, 3516065817,
  3600352804, 4094571909, 275423344, 430227734, 506948616,
  659060556, 883997877, 958139571, 1322822218, 1537002063,
  1747873779, 1955562222, 2024104815, 2227730452, 2361852424,
  2428436474, 2756734187, 3204031479, 3329325298]

/-- The initial hash state (FIPS 180-4 §5.3.3), written in decimal. -/
def H0 : Array Nat := #[
  1779033703, 3144134277, 1013904242, 2773480762,
  1359893119, 2600822924, 528734635, 1541459225]

/-- Group a byte list into big-endian 32-bit words (input length is a
multiple of 4 after padding). -/
def toWords : List Nat → List Nat
  | a :: b :: c :: d :: rest => (((a * 256 + b) * 256 + c) * 256 + d) :: toWords rest
  | _ => []

/-- Split a word list into 16-word blocks (input length is a multiple of 16
after padding). -/
def groups16 : List Nat → List (List Nat)
  | w0 :: w1 :: w2 :: w3 :: w4 :: w5 :: w6 :: w7 ::
    w8 :: w9 :: w10 :: w11 :: w12 :: w13 :: w14 :: w15 :: rest =>
      [w0, w1, w2, w3, w4, w5, w6, w7, w8, w9, w10, w11, w12, w13, w14, w15] :: groups16 rest
  | _ => []

/-- Big-endian 8-byte encoding of the message bit length. -/
def lenBytes (bits : Nat) : List Nat :=
  [bits >>> 56 % 256, bits >>> 48 % 256, bits >>> 40 % 256, bits >>> 32 % 256,
   bits >>> 24 % 256, bits >>> 16 % 256, bits >>> 8 % 256, bits % 256]

/-- Merkle–Damgård padding: `0x80`, zeros to 56 mod 64, then the bit length. -/
def pad (msg : List Nat) : List Nat :=
  msg ++ 0x80 :: List.replicate ((64 - (msg.length + 9) % 64) % 64) 0 ++ lenBytes (8 * msg.length)

/-- One compression round over a 16-word block. -/
def compress (h : Array Nat) (block : List Nat) : Array Nat := Id.run do
  let mut w := block.toArray
  for i in [16:64] do
    w := w.push ((smallSigma1 (w.getD (i - 2) 0) + w.getD (i - 7) 0 +
                  smallSigma0 (w.getD (i - 15) 0) + w.getD (i - 16) 0) % M32)
  let mut a := h.getD 0 0
  let mut b := h.getD 1 0
  let mut c := h.getD 2 0
  let mut d := h.getD 3 0
  let mut e := h.getD 4 0
  let mut f := h.getD 5 0
  let mut g := h.getD 6 0
  let mut hh := h.getD 7 0
  for i in [0:64] do
    let t1 := (hh + bigSigma1 e + ch e f g + K.getD i 0 + w.getD i 0) % M32
    let t2 := (bigSigma0 a + maj a b c) % M32
    hh := g
    g := f
    f := e
    e := (d + t1) % M32
    d := c
    c := b
    b := a
    a := (t1 + t2) % M32
  return #[(h.getD 0 0 + a) % M32, (h.getD 1 0 + b) % M32, (h.getD 2 0 + c) % M32,
           (h.getD 3 0 + d) % M32, (h.getD 4 0 + e) % M32, (h.getD 5 0 + f) % M32,
           (h.getD 6 0 + g) % M32, (h.getD 7 0 + hh) % M32]

/-- The SHA-256 digest of a byte string, as 32 bytes. -/
def digest (msg : List Nat) : List Nat :=
  let final := (groups16 (toWords (pad msg))).foldl compress H0
  final.toList.foldr
    (fun w acc => w >>> 24 % 256 :: w >>> 16 % 256 :: w >>> 8 % 256 :: w % 256 :: acc) []

end SHA256

/-- Lower-case hex digit for a value below 16. -/
def hexChar (n : Nat) : Char :=
  if n < 10 then Char.ofNat (48 + n) else Char.ofNat (87 + n)

/-- Lower-case hex rendering of a byte string (`.hexdigest()`). -/
def hexdigest (bytes : List Nat) : String :=
  String.mk ((bytes.map fun b => [hexChar (b / 16), hexChar (b % 16)]).flatten)

/-- UTF-8 bytes of one code point. -/
def utf8Bytes (c : Char) : List Nat :=
  let n := c.toNat
  if n < 0x80 then [n]
  else if n < 0x800 then [0xc0 + n / 64, 0x80 + n % 64]
  else if n < 0x10000 then [0xe0 + n / 4096, 0x80 + n / 64 % 64, 0x80 + n % 64]
  else [0xf0 + n / 262144, 0x80 + n / 4096 % 64, 0x80 + n / 64 % 64, 0x80 + n % 64]

/-- UTF-8 encoding of a string (`s.encode()`). -/
def utf8Encode (s : String) : List Nat :=
  (s.data.map utf8Bytes).flatten

/-! ## `firebreak/types.py` — capability profiles -/

/-- `NetworkPolicy` enum. -/
inductive NetworkPolicy where
  | nonePolicy
  | httpsOnly
  | allPolicy
deriving DecidableEq

/-- The `.value` string of a `NetworkPolicy` member. -/
def NetworkPolicy.value : NetworkPolicy → String
  | .nonePolicy => "none"
  | .httpsOnly => "https-only"
  | .allPolicy => "all"

/-- `NetworkPolicy(s)`: enum lookup by value; `ValueError` when no member
has that value. -/
def NetworkPolicy.ofValue (s : String) : Except PyErr NetworkPolicy :=
  if s = "none" then .ok .nonePolicy
  else if s = "https-only" then .ok .httpsOnly
  else if s = "all" then .ok .allPolicy
  else .error ⟨"ValueError", s ++ " is not a valid NetworkPolicy", ""⟩

/-- `FileSystemAccess` enum. -/
inductive FileSystemAccess where
  | noneAccess
  | read
  | write
  | readWrite
deriving DecidableEq

/-- The `access_map` of `FSMount.parse`: short access string to member. -/
def FileSystemAccess.ofShort (a : String) : Option FileSystemAccess :=
  if a = "r" then Option.some .read
  else if a = "w" then Option.some .write
  else if a = "rw" then Option.some .readWrite
  else Option.none

/-- Short access string as rendered by `FSMount.__str__`. -/
def FileSystemAccess.short : FileSystemAccess → String
  | .read => "r"
  | .write => "w"
  | .readWrite => "rw"
  | .noneAccess => "none"

/-- A filesystem mount specification. -/
structure FSMount where
  path : String
  access : FileSystemAccess
deriving DecidableEq

/-- `FSMount.parse(spec)`: `"none"` yields the `(path="", access=NONE)`
mount; otherwise the spec is split at its first `":"` and the prefix must be
one of `r`/`w`/`rw`; a `ValueError` is raised otherwise. -/
def FSMount.parse (spec : String) : Except PyErr FSMount :=
  if spec = "none" then .ok ⟨"", .noneAccess⟩
  else
    match splitOnce ':' spec.data with
    | Option.none =>
        .error ⟨"ValueError", "Invalid fs spec: " ++ spec ++
          ". Expected format: r:/path or rw:/path", ""⟩
    | Option.some (accessChars, pathChars) =>
        match FileSystemAccess.ofShort (String.mk accessChars) with
        | Option.some access => .ok ⟨String.mk pathChars, access⟩
        | Option.none =>
            .error ⟨"ValueError", "Invalid access mode: " ++ String.mk accessChars ++
              ". Expected: r, w, or rw", ""⟩

/-- `FSMount.__str__`: `"none"` for a NONE-access mount, else
`"<access>:<path>"`. -/
def FSMount.str (m : FSMount) : String :=
  if m.access = .noneAccess then "none" else m.access.short ++ ":" ++ m.path

/-- The immutable `CapabilityProfile` dataclass. -/
structure CapabilityProfile where
  fs_mounts : List FSMount
  net : NetworkPolicy
  cpu_ms : Int
  mem_mb : Int
  dependencies : List String
deriving DecidableEq

/-- The `fs` argument of `from_kwargs`: either a single spec string or a
list of spec strings. -/
inductive FsArg where
  | one (s : String)
  | many (l : List String)

/-- Stable comparison used by `sorted(fs_mounts, key=str)`. -/
def mountLe (a b : FSMount) : Bool := pyStrLe a.str b.str

/-- The dataclass constructor including `__post_init__` validation
(positive `cpu_ms` and `mem_mb`). -/
def CapabilityProfile.mk' (fs_mounts : List FSMount) (net : NetworkPolicy)
    (cpu_ms mem_mb : Int) (dependencies : List String) :
    Except PyErr CapabilityProfile :=
  if cpu_ms ≤ 0 then .error ⟨"ValueError", "cpu_ms must be positive", ""⟩
  else if mem_mb ≤ 0 then .error ⟨"ValueError", "mem_mb must be positive", ""⟩
  else .ok ⟨fs_mounts, net, cpu_ms, mem_mb, dependencies⟩

/-- `CapabilityProfile.from_kwargs`: parse the mount spec(s), look up the
network policy, sort the dependency list, sort the mounts by their string
rendering, and construct the profile. -/
def CapabilityProfile.from_kwargs (fs : Option FsArg) (net : Option String)
    (cpu_ms mem_mb : Int) (dependencies : Option (List String)) :
    Except PyErr CapabilityProfile :=
  match (match fs with
         | Option.none => Except.ok ([] : List FSMount)
         | Option.some (.one s) => (FSMount.parse s).map fun m => [m]
         | Option.some (.many l) => l.mapM FSMount.parse) with
  | .error e => .error e
  | .ok fs_mounts =>
    match (match net with
           | Option.none => Except.ok NetworkPolicy.nonePolicy
           | Option.some s => NetworkPolicy.ofValue s) with
    | .error e => .error e
    | .ok net_policy =>
      let deps := match dependencies with
        | Option.none => ([] : List String)
        | Option.some l => pySorted pyStrLe l
      CapabilityProfile.mk' (pySorted mountLe fs_mounts) net_policy cpu_ms mem_mb deps

/-- `CapabilityProfile.canonical_repr`: the five `name=value` fields joined
with `";"`; the `deps` and `fs` fields fall back to the string `"none"`
via Python `or` when their comma-join is empty (falsy). -/
def CapabilityProfile.canonical_repr (p : CapabilityProfile) : String :=
  pyJoin ";" [
    "cpu_ms=" ++ toString p.cpu_ms,
    "deps=" ++ pyOrStr (pyJoin "," p.dependencies) "none",
    "fs=" ++ pyOrStr (pyJoin "," (p.fs_mounts.map FSMount.str)) "none",
    "mem_mb=" ++ toString p.mem_mb,
    "net=" ++ p.net.value]

/-! ## `firebreak/profile.py` — fingerprinting -/

/-- `ProfileHasher.hash`: first 16 hex characters of the SHA-256 digest of
the UTF-8 canonical form. -/
def ProfileHasher.hash (p : CapabilityProfile) : String :=
  pySlice (hexdigest (SHA256.digest (utf8Encode p.canonical_repr))) 16

/-- Claim-side rendering of C1, written from the spec sentence: the five
fields in fixed order, with the `"none"` sentinel substituted exactly for an
EMPTY dependencies sequence and for an EMPTY mounts sequence. -/
def canonicalClaimC1 (p : CapabilityProfile) : String :=
  "cpu_ms=" ++ toString p.cpu_ms ++ ";" ++
  "deps=" ++ (if p.dependencies = [] then "none" else pyJoin "," p.dependencies) ++ ";" ++
  "fs=" ++ (if p.fs_mounts = [] then "none"
            else pyJoin "," (p.fs_mounts.map FSMount.str)) ++ ";" ++
  "mem_mb=" ++ toString p.mem_mb ++ ";" ++
  "net=" ++ p.net.value

/-- Amended rendering of C1: the sentinel is substituted whenever the
comma-join of the sequence is the empty string — for mounts exactly the
empty sequence, for dependencies the empty sequence and the singleton
sequence containing the empty specifier. -/
def canonicalAmendedC1 (p : CapabilityProfile) : String :=
  "cpu_ms=" ++ toString p.cpu_ms ++ ";" ++
  "deps=" ++ (if pyJoin "," p.dependencies = "" then "none"
              else pyJoin "," p.dependencies) ++ ";" ++
  "fs=" ++ (if pyJoin "," (p.fs_mounts.map FSMount.str) = "" then "none"
            else pyJoin "," (p.fs_mounts.map FSMount.str)) ++ ";" ++
  "mem_mb=" ++ toString p.mem_mb ++ ";" ++
  "net=" ++ p.net.value

/-- Claim-side fingerprint: first 16 hex characters of the SHA-256 digest of
the UTF-8 encoding of the (amended) canonical form. -/
def fingerprintAmendedC1 (p : CapabilityProfile) : String :=
  pySlice (hexdigest (SHA256.digest (utf8Encode (canonicalAmendedC1 p)))) 16

/-! ## `firebreak/executor.py` — the guest executor

The guest's interaction with the outside world is an explicit environment:
a module table for `importlib.import_module`/`getattr`, an oracle for the
sandboxed function call itself (which also records whether the interval
timer was armed when the call ran), and an oracle for the package-installer
subprocess. -/

/-- A Python object as seen by attribute walking: its attribute table and
whether it is callable. -/
inductive Obj where
  | mk (attrs : List (String × Obj)) (callable : Bool)

/-- Attribute table of an object. -/
def Obj.attrs : Obj → List (String × Obj)
  | .mk a _ => a

/-- Whether the object is callable. -/
def Obj.callable : Obj → Bool
  | .mk _ c => c

/-- Outcome of invoking the resolved function: a returned value, a raised
`Exception` (caught by `execute_function`'s `except Exception` clause), or a
raised `BaseException` that is NOT an `Exception` — e.g. `SystemExit` from
`sys.exit` or `KeyboardInterrupt` — which `except Exception` does not catch,
so it escapes `execute_function` and `handle_request`. -/
inductive CallResult where
  | ok (v : PyVal)
  | exn (e : PyErr)
  | baseExn (e : PyErr)

/-- The guest-side environment: the loadable modules, and the outcome of
`func(*args, **kwargs)` given the function object, the arguments and
whether the `SIGALRM` interval timer was armed. -/
structure GuestEnv where
  modules : List (String × Obj)
  call : Obj → List PyVal → PyVal → Bool → CallResult

/-- `getattr` walking over a `"."`-separated attribute path. -/
def walkAttrs : Obj → List String → Except PyErr Obj
  | o, [] => .ok o
  | o, part :: rest =>
    match o.attrs.lookup part with
    | Option.some o2 => walkAttrs o2 rest
    | Option.none =>
        .error ⟨"AttributeError", "object has no attribute " ++ part, ""⟩

/-- Resolution part of `import_function`: guard that a colon occurs, split
at the LAST colon (`rsplit(":", 1)`), import the module, walk the
`"."`-separated attribute path. -/
def resolveRef (genv : GuestEnv) (s : String) : Except PyErr Obj :=
  if (':' ∈ s.data : Bool) = false then
    .error ⟨"ValueError", "Invalid function reference: " ++ s, ""⟩
  else
    let pr := rsplitOnce ':' s.data
    match genv.modules.lookup (String.mk pr.1) with
    | Option.none =>
        .error ⟨"ModuleNotFoundError", "No module named " ++ String.mk pr.1, ""⟩
    | Option.some m => walkAttrs m ((splitAll '.' pr.2).map String.mk)

/-- `import_function(function_ref)`: resolve the reference, then fail with
`TypeError` when the resolved object is not callable.  A non-string
argument makes the `":" not in function_ref` test itself raise
`TypeError`. -/
def import_function (genv : GuestEnv) (function_ref : PyVal) : Except PyErr Obj :=
  match function_ref with
  | .str s =>
    match resolveRef genv s with
    | .error e => .error e
    | .ok obj =>
        if obj.callable then .ok obj
        else .error ⟨"TypeError", s ++ " is not callable", ""⟩
  | v => .error ⟨"TypeError", "argument of type " ++ v.typeName ++ " is not iterable", ""⟩

/-- The failure envelope built by `execute_function`'s `except` clause. -/
def failEnvelope (e : PyErr) : Envelope :=
  [("success", .bool false), ("result", .null),
   ("error", .dict [("type", .str e.ty), ("message", .str e.msg),
                    ("traceback", .str e.trace)])]

/-- Python `timeout_ms > 0` on a dynamic value: ints and bools compare,
anything else raises `TypeError`.  Its result decides whether the interval
timer is armed. -/
def pyGtZero : PyVal → Except PyErr Bool
  | .int n => .ok (decide (0 < n))
  | .bool b => .ok b
  | v => .error ⟨"TypeError", "unsupported comparison between " ++ v.typeName ++ " and int", ""⟩

/-- `execute_function`: import the function, arm the timer iff
`timeout_ms > 0`, invoke, and return a success or failure envelope.  The
surrounding `except Exception` clause catches and reifies every raised
`Exception` (import errors, the comparison `TypeError`, and any `Exception`
from the call), but a `BaseException` outside `Exception` raised by the
invoked function propagates out uncaught. -/
def execute_function (genv : GuestEnv) (function_ref : PyVal) (args : List PyVal)
    (kwargs : PyVal) (timeout_ms : PyVal) : Except PyErr Envelope :=
  match import_function genv function_ref with
  | .error e => .ok (failEnvelope e)
  | .ok f =>
    match pyGtZero timeout_ms with
    | .error e => .ok (failEnvelope e)
    | .ok armed =>
      match genv.call f args kwargs armed with
      | .ok v => .ok [("success", .bool true), ("result", v), ("error", .null)]
      | .exn e => .ok (failEnvelope e)
      | .baseExn e => .error e

/-- Outcome of the installer subprocess run. -/
inductive RunOutcome where
  | completed (returncode : Int) (stdout stderr : String)
  | timedOut
  | raised (e : PyErr)

/-- The installer environment: `uvRun = none` models `uv` being missing
(`FileNotFoundError`, falling back to `pip`); otherwise `uvRun` is the
outcome of the `uv` run and `pipRun` the outcome of the `pip` fallback. -/
structure InstallEnv where
  uvRun : Option RunOutcome
  pipRun : RunOutcome

/-- The subprocess outcome actually observed (uv preferred, pip on
`FileNotFoundError`). -/
def InstallEnv.effectiveRun (env : InstallEnv) : RunOutcome :=
  match env.uvRun with
  | Option.some o => o
  | Option.none => env.pipRun

/-- `install_dependencies(dependencies)`: early success on a falsy argument,
validation of each specifier (truthy strings only), then the subprocess run;
a non-zero exit reports `stderr or stdout` truncated to its FIRST 500
characters; everything after the validation loop is caught and reified, but
iterating a truthy non-iterable argument raises. -/
def install_dependencies (env : InstallEnv) (dependencies : PyVal) :
    Except PyErr Envelope :=
  if dependencies.truthy = false then
    .ok [("success", .bool true), ("result", .str "No dependencies to install")]
  else
    match dependencies.iterate with
    | .error e => .error e
    | .ok deps =>
      match deps.find? (fun d => !d.truthy || !d.isStr) with
      | Option.some bad =>
          .ok [("success", .bool false), ("result", .null),
               ("error", .dict [("type", .str "ValidationError"),
                 ("message", .str ("Invalid dependency specification: " ++ bad.reprLite)),
                 ("traceback", .str "")])]
      | Option.none =>
        match env.effectiveRun with
        | .completed rc out err =>
          if rc ≠ 0 then
            let error_output := pyOrStr err out
            .ok [("success", .bool false), ("result", .null),
                 ("error", .dict [("type", .str "InstallError"),
                   ("message", .str ("Failed to install dependencies: " ++
                     pySlice error_output 500)),
                   ("traceback", .str error_output)])]
          else
            .ok [("success", .bool true),
                 ("result", .str ("Installed: " ++ pyJoin ", " (deps.map PyVal.reprLite)))]
        | .timedOut =>
            .ok [("success", .bool false), ("result", .null),
                 ("error", .dict [("type", .str "TimeoutError"),
                   ("message", .str "Dependency installation timed out after 300 seconds"),
                   ("traceback", .str "")])]
        | .raised e =>
            .ok [("success", .bool false), ("result", .null),
                 ("error", .dict [("type", .str e.ty), ("message", .str e.msg),
                   ("traceback", .str e.trace)])]

/-- Whether `request_data.get("command") == "install"`. -/
def isInstallRequest (request_data : Envelope) : Bool :=
  match request_data.lookup "command" with
  | Option.some (.str s) => s = "install"
  | _ => false

/-- `handle_request(request_data)`: dispatch install commands or function
execution, defaulting a missing `request_id` to `"unknown"` and a missing
`timeout_ms` to `0`, and stamp `request_id` onto the returned envelope.
The handler has no `try`/`except` of its own, so
`tuple(request_data.get("args", []))` and the installer's validation loop
can raise on non-iterable inputs, and a `BaseException` outside `Exception`
escaping `execute_function` escapes the handler too. -/
def handle_request (genv : GuestEnv) (ienv : InstallEnv) (request_data : Envelope) :
    Except PyErr Envelope :=
  let request_id := dictGetD request_data "request_id" (.str "unknown")
  if isInstallRequest request_data then
    match install_dependencies ienv (dictGetD request_data "dependencies" (.list [])) with
    | .error e => .error e
    | .ok result => .ok (dictSet result "request_id" request_id)
  else
    let function_ref := dictGetD request_data "function_ref" (.str "")
    match (dictGetD request_data "args" (.list [])).iterate with
    | .error e => .error e
    | .ok args =>
      let kwargs := dictGetD request_data "kwargs" (.dict [])
      let timeout_ms := dictGetD request_data "timeout_ms" (.int 0)
      match execute_function genv function_ref args kwargs timeout_ms with
      | .error e => .error e
      | .ok result => .ok (dictSet result "request_id" request_id)

/-! ## `firebreak/pool.py` — the per-profile VM worker pool

The pool's async methods are modelled as atomic state transitions on
`PoolState` (the host runtime is single-threaded cooperative; every claim is
about quiescent states).  VM ids are the monotonically allocated cids (the
Python `vm_id` string `f"<profile_key>-<cid>"` is injective in the cid).
The `all`/`in_use` dicts are only ever used for counting and popping by key,
so they are modelled as id lists; the available queue holds the instance
records.  Wall-clock instants are abstract naturals supplied by events. -/

/-- A pooled VM instance (the fields the pool logic reads). -/
structure VMInst where
  vm_id : Nat
  call_count : Nat
  last_used : Nat
  tainted : Bool
deriving DecidableEq

/-- `VMInstance.mark_used`. -/
def VMInst.mark_used (vm : VMInst) (now : Nat) : VMInst :=
  { vm with call_count := vm.call_count + 1, last_used := now }

/-- `PoolConfig` (the real-time-only fields `startup_timeout_sec` and
`acquire_timeout_sec` are not modelled). -/
structure PoolConfig where
  min_size : Nat
  max_size : Nat
  max_calls_per_vm : Nat
  idle_timeout_sec : Nat
deriving DecidableEq

/-- The pool state: FIFO available queue, in-use ids, bookkeeping index of
all ids, the cid counter and the shutdown flag. -/
structure PoolState where
  available : List VMInst
  in_use : List Nat
  all_vms : List Nat
  cid_counter : Nat
  shutdown : Bool
deriving DecidableEq

/-- The state of a freshly constructed pool (`_cid_counter = 100`). -/
def initPool : PoolState :=
  { available := [], in_use := [], all_vms := [], cid_counter := 100, shutdown := false }

/-- The fresh instance `_create_vm` builds after bumping the counter. -/
def freshVM (s : PoolState) (now : Nat) : VMInst :=
  { vm_id := s.cid_counter + 1, call_count := 0, last_used := now, tainted := false }

/-- `_create_vm` (successful case): bump the counter, boot, register in
`all`. -/
def createVM (s : PoolState) (now : Nat) : VMInst × PoolState :=
  let vm := freshVM s now
  (vm, { s with cid_counter := s.cid_counter + 1, all_vms := s.all_vms ++ [vm.vm_id] })

/-- `self._available.put(vm)`. -/
def putAvailable (s : PoolState) (vm : VMInst) : PoolState :=
  { s with available := s.available ++ [vm] }

/-- One successful iteration of `start`'s initial-population loop (also the
replacement creation in `_release_vm`): create a VM and enqueue it. -/
def startCreateOne (s : PoolState) (now : Nat) : PoolState :=
  let p := createVM s now
  putAvailable p.2 p.1

/-- `_should_recycle`: tainted, or the call cap reached. -/
def should_recycle (cfg : PoolConfig) (vm : VMInst) : Bool :=
  vm.tainted || decide (cfg.max_calls_per_vm ≤ vm.call_count)

/-- The post-destruction step of `_release_vm`: create and enqueue a
replacement when the pool dropped below `min_size` and the replacement boot
succeeds (`repl = true`; a failed boot is logged, not fatal). -/
def releaseRecycle (cfg : PoolConfig) (repl : Bool) (s2 : PoolState) (now : Nat) :
    PoolState :=
  if decide (s2.all_vms.length < cfg.min_size) && repl then startCreateOne s2 now
  else s2

/-- `_release_vm`: drop from `in_use`, `mark_used`, then either destroy the
VM (`_destroy_vm` pops it from every index) and possibly create a
replacement, or push it back onto the available queue. -/
def release_vm (cfg : PoolConfig) (repl : Bool) (s : PoolState) (vm : VMInst)
    (now : Nat) : PoolState :=
  if should_recycle cfg (vm.mark_used now) then
    releaseRecycle cfg repl
      { s with in_use := s.in_use.erase vm.vm_id
               all_vms := s.all_vms.erase vm.vm_id } now
  else
    putAvailable { s with in_use := s.in_use.erase vm.vm_id } (vm.mark_used now)

/-- Result of `_acquire_vm`. -/
inductive AcquireResult where
  | got (vm : VMInst) (s : PoolState)
  | exhausted
deriving DecidableEq

/-- The `asyncio.TimeoutError` branch of `_acquire_vm` (the queue stayed
empty for `acquire_timeout_sec`): create inline when below `max_size`,
otherwise `VMPoolExhaustedError`.  There is no shutdown check on this
path. -/
def acquire_timeout (cfg : PoolConfig) (s : PoolState) (now : Nat) : AcquireResult :=
  if s.all_vms.length < cfg.max_size then
    let p := createVM s now
    .got p.1 { p.2 with in_use := p.2.in_use ++ [p.1.vm_id] }
  else .exhausted

/-- `_acquire_vm` at a quiescent state: take the queue head if one is
available, otherwise the timeout branch. -/
def acquire_vm (cfg : PoolConfig) (s : PoolState) (now : Nat) : AcquireResult :=
  match s.available with
  | vm :: rest => .got vm { s with available := rest, in_use := s.in_use ++ [vm.vm_id] }
  | [] => acquire_timeout cfg s now

/-- Outcome of the awaited `vm.client.call(request)` inside `execute`. -/
inductive ExecOutcome where
  | ok (response : Envelope)
  | hostTimeout
  | failure (e : PyErr)

/-- The body of `execute` on the acquired VM: a clean response is returned
unchanged; a host timeout or any other exception taints the VM and
propagates (no response). -/
def executeOnVM (vm : VMInst) (o : ExecOutcome) : VMInst × Option Envelope :=
  match o with
  | .ok r => (vm, Option.some r)
  | .hostTimeout => ({ vm with tainted := true }, Option.none)
  | .failure _ => ({ vm with tainted := true }, Option.none)

/-- One iteration of the maintenance loop's per-VM check: destroy an idle VM
while above `min_size`, otherwise re-enqueue it. -/
def maintainStep (cfg : PoolConfig) (now : Nat) (st : PoolState) (vm : VMInst) :
    PoolState :=
  if decide (cfg.idle_timeout_sec < now - vm.last_used) &&
     decide (cfg.min_size < st.all_vms.length) then
    { st with all_vms := st.all_vms.erase vm.vm_id }
  else putAvailable st vm

/-- One maintenance pass: drain the available queue and process each drained
VM in order. -/
def maintain (cfg : PoolConfig) (now : Nat) (s : PoolState) : PoolState :=
  s.available.foldl (maintainStep cfg now) { s with available := [] }

/-- `_destroy_vm` applied to a list of ids: pop each from the `all` index. -/
def destroyIds (ids : List Nat) (all : List Nat) : List Nat :=
  ids.foldl (fun a i => a.erase i) all

/-- `stop`: set the shutdown flag, drain and destroy the available queue,
then destroy every in-use VM. -/
def stopPool (s : PoolState) : PoolState :=
  { available := [], in_use := [],
    all_vms := destroyIds s.in_use (destroyIds (s.available.map VMInst.vm_id) s.all_vms),
    cid_counter := s.cid_counter, shutdown := true }

/-- The pool's atomic transitions: initial/replacement creation, acquisition
(either branch), release of a held VM (with whatever instance record the
acquirer holds, e.g. tainted by `executeOnVM`), a maintenance pass, and
shutdown. -/
inductive PoolStep (cfg : PoolConfig) : PoolState → PoolState → Prop where
  | startCreate (s : PoolState) (now : Nat) : PoolStep cfg s (startCreateOne s now)
  | acquire (s : PoolState) (now : Nat) (vm : VMInst) (s2 : PoolState)
      (h : acquire_vm cfg s now = .got vm s2) : PoolStep cfg s s2
  | release (s : PoolState) (vm : VMInst) (now : Nat) (repl : Bool)
      (h : vm.vm_id ∈ s.in_use) : PoolStep cfg s (release_vm cfg repl s vm now)
  | maintainLoop (s : PoolState) (now : Nat) : PoolStep cfg s (maintain cfg now s)
  | stopStep (s : PoolState) : PoolStep cfg s (stopPool s)

/-- States reachable from a freshly constructed pool. -/
inductive PoolReach (cfg : PoolConfig) : PoolState → Prop where
  | init : PoolReach cfg initPool
  | step {s s2 : PoolState} : PoolReach cfg s → PoolStep cfg s s2 → PoolReach cfg s2

/-- The pool's structural invariant: `all` is (as a multiset) the available
ids together with the in-use ids, ids are unique and bounded by the counter,
and every queued VM is untainted and within the call cap. -/
structure PoolInv (cfg : PoolConfig) (s : PoolState) : Prop where
  perm : s.all_vms.Perm (s.available.map VMInst.vm_id ++ s.in_use)
  nodup : s.all_vms.Nodup
  le_ctr : ∀ i ∈ s.all_vms, i ≤ s.cid_counter
  queue : ∀ vm ∈ s.available, vm.tainted = false ∧ vm.call_count ≤ cfg.max_calls_per_vm

/-! ## `firebreak/runner.py` — snapshot provisioning -/

/-- A provisioned snapshot record. -/
structure SnapshotArtifact where
  snapshot_path : String
  mem_path : String
  profile_key : String
  dependencies : List String
deriving DecidableEq

/-- The runner's snapshot cache (`self._snapshots`). -/
structure RunnerState where
  snapshots : List (String × SnapshotArtifact)
deriving DecidableEq

/-- Outcome of the provisioning attempt's external effects: the install RPC
and the snapshot-creation API call. -/
inductive ProvisionOutcome where
  | ok
  | installErr (e : PyErr)
  | snapshotErr (e : PyErr)

/-- `LocalFirecrackerRunner.provision_snapshot`: absent for a profile
without dependencies; the cached record for an already provisioned key;
otherwise boot, install, snapshot — an install or snapshot failure
propagates (through the `finally` that stops the provisioning VM) without
touching the cache, and success stores and returns the new record. -/
def provision_snapshot (snapshot_dir : String) (st : RunnerState)
    (profile : CapabilityProfile) (profile_key : String) (o : ProvisionOutcome) :
    RunnerState × Except PyErr (Option SnapshotArtifact) :=
  if profile.dependencies = [] then (st, .ok Option.none)
  else
    match st.snapshots.lookup profile_key with
    | Option.some info => (st, .ok (Option.some info))
    | Option.none =>
      match o with
      | .installErr e => (st, .error e)
      | .snapshotErr e => (st, .error e)
      | .ok =>
        let info : SnapshotArtifact :=
          { snapshot_path := snapshot_dir ++ "/" ++ profile_key ++ "/snapshot",
            mem_path := snapshot_dir ++ "/" ++ profile_key ++ "/mem",
            profile_key := profile_key,
            dependencies := profile.dependencies }
        ({ snapshots := (profile_key, info) :: st.snapshots }, .ok (Option.some info))

/-! ## Claim-side helper definitions used by theorem statements -/

/-- The error message field of a response envelope. -/
def errMessage (e : Envelope) : Option PyVal :=
  match e.lookup "error" with
  | Option.some (.dict d) => d.lookup "message"
  | _ => Option.none

/-- The last at-most-`n` characters of a string (the "tail" of C9). -/
def lastChars (n : Nat) (s : String) : List Char :=
  s.data.drop (s.data.length - n)

/-- `small` occurs contiguously inside `big`. -/
def occursIn (small big : List Char) : Prop :=
  ∃ a b, big = a ++ small ++ b

/-- Claim-side split of a function reference at the LEFTMOST colon
(the spec's reading), for comparison with `rsplitOnce` used by the code. -/
def lsplitClaim (c : Char) (l : List Char) : List Char × List Char :=
  match splitOnce c l with
  | Option.some p => p
  | Option.none => (l, [])

/-- Decidable equality for `Except` results (used to evaluate the model at
concrete inputs). -/
instance {ε α : Type} [DecidableEq ε] [DecidableEq α] : DecidableEq (Except ε α) :=
  fun x y =>
  match x, y with
  | .ok a, .ok b =>
    if h : a = b then .isTrue (h ▸ rfl) else .isFalse fun hc => h (Except.ok.inj hc)
  | .error a, .error b =>
    if h : a = b then .isTrue (h ▸ rfl) else .isFalse fun hc => h (Except.error.inj hc)
  | .ok _, .error _ => .isFalse fun hc => Except.noConfusion hc
  | .error _, .ok _ => .isFalse fun hc => Except.noConfusion hc

/-- The envelope of a successful guest result (`[]` for a raised
exception); used only to state facts about concrete runs. -/
def resultEnvelope : Except PyErr Envelope → Envelope
  | .ok e => e
  | .error _ => []

/-! ## Helper lemmas -/

theorem splitOnce_eq_some {c : Char} : ∀ {l a b : List Char},
    splitOnce c l = Option.some (a, b) → l = a ++ c :: b ∧ c ∉ a := by
  intro l
  induction l with
  | nil => intro a b h; simp [splitOnce] at h
  | cons x xs ih =>
    intro a b h
    rw [splitOnce] at h
    split at h
    · rename_i hx
      subst hx
      simp only [Option.some.injEq, Prod.mk.injEq] at h
      obtain ⟨ha, hb⟩ := h
      subst ha; subst hb
      simp
    · rename_i hx
      cases hs : splitOnce c xs with
      | none => rw [hs] at h; simp at h
      | some p =>
        rw [hs] at h
        simp only [Option.map_some', Option.some.injEq, Prod.mk.injEq] at h
        obtain ⟨ha, hb⟩ := h
        obtain ⟨heq, hni⟩ := ih (a := p.1) (b := p.2) (by rw [hs])
        subst hb
        constructor
        · rw [← ha, heq]; simp
        · rw [← ha]
          intro hmem
          rcases List.mem_cons.mp hmem with h1 | h2
          · exact hx h1.symm
          · exact hni h2

theorem splitOnce_of_mem {c : Char} : ∀ {l : List Char}, c ∈ l →
    ∃ a b, splitOnce c l = Option.some (a, b) := by
  intro l
  induction l with
  | nil => intro h; simp at h
  | cons x xs ih =>
    intro h
    by_cases hx : x = c
    · exact ⟨[], xs, by simp [splitOnce, hx]⟩
    · have hmem : c ∈ xs := by
        rcases List.mem_cons.mp h with h1 | h2
        · exact absurd h1.symm hx
        · exact h2
      obtain ⟨a, b, hab⟩ := ih hmem
      exact ⟨x :: a, b, by simp [splitOnce, hx, hab]⟩

theorem splitOnce_append {c : Char} : ∀ {a : List Char} (b : List Char), c ∉ a →
    splitOnce c (a ++ c :: b) = Option.some (a, b) := by
  intro a
  induction a with
  | nil => intro b _; simp [splitOnce]
  | cons x xs ih =>
    intro b hni
    have hx : ¬ x = c := fun h => hni (by simp [h])
    have hni2 : c ∉ xs := fun h => hni (List.mem_cons_of_mem x h)
    simp [splitOnce, hx, ih b hni2]

theorem rsplitOnce_spec {c : Char} {l : List Char} (h : c ∈ l) :
    l = (rsplitOnce c l).1 ++ c :: (rsplitOnce c l).2 ∧ c ∉ (rsplitOnce c l).2 := by
  obtain ⟨a, b, hab⟩ := splitOnce_of_mem (List.mem_reverse.mpr h)
  obtain ⟨heq, hni⟩ := splitOnce_eq_some hab
  rw [rsplitOnce, hab]
  refine ⟨?_, ?_⟩
  · have h2 : l.reverse.reverse = (a ++ c :: b).reverse := by rw [heq]
    rw [List.reverse_reverse] at h2
    rw [h2]
    simp
  · simpa [List.mem_reverse] using hni

theorem lookup_append_of_eq_none {d : Envelope} {k : String} (v : PyVal)
    (h : d.lookup k = Option.none) : (d ++ [(k, v)]).lookup k = Option.some v := by
  induction d with
  | nil => simp [List.lookup]
  | cons kv rest ih =>
    rw [List.cons_append, List.lookup]
    rw [List.lookup] at h
    cases hbeq : k == kv.1 with
    | true => rw [hbeq] at h; simp at h
    | false => rw [hbeq] at h; exact ih h

theorem lookup_map_replace {d : Envelope} {k : String} (v : PyVal)
    (h : ¬ (d.lookup k).isNone) :
    (d.map fun kv => if kv.1 = k then (k, v) else kv).lookup k = Option.some v := by
  induction d with
  | nil => simp [List.lookup] at h
  | cons kv rest ih =>
    by_cases hk : kv.1 = k
    · simp only [List.map_cons, if_pos hk]
      rw [List.lookup]
      simp
    · simp only [List.map_cons, if_neg hk]
      rw [List.lookup]
      have hbeq : (k == kv.1) = false := by
        simp only [beq_eq_false_iff_ne, ne_eq]
        exact fun he => hk he.symm
      rw [hbeq]
      apply ih
      rw [List.lookup] at h
      rw [hbeq] at h
      exact h

theorem lookup_dictSet (d : Envelope) (k : String) (v : PyVal) :
    (dictSet d k v).lookup k = Option.some v := by
  rw [dictSet]
  split
  · rename_i h
    exact lookup_append_of_eq_none v (Option.isNone_iff_eq_none.mp h)
  · rename_i h
    exact lookup_map_replace v h

theorem lookup_append_ne (d : Envelope) {k k2 : String} (v : PyVal) (h : k2 ≠ k) :
    (d ++ [(k, v)]).lookup k2 = d.lookup k2 := by
  induction d with
  | nil => simp [List.lookup, beq_eq_false_iff_ne.mpr h]
  | cons kv rest ih =>
    rw [List.cons_append, List.lookup, List.lookup]
    cases hbeq : k2 == kv.1 with
    | true => rfl
    | false => exact ih

theorem lookup_map_ne (d : Envelope) {k k2 : String} (v : PyVal) (h : k2 ≠ k) :
    (d.map fun kv => if kv.1 = k then (k, v) else kv).lookup k2 = d.lookup k2 := by
  induction d with
  | nil => simp
  | cons kv rest ih =>
    by_cases hk : kv.1 = k
    · simp only [List.map_cons, if_pos hk]
      rw [List.lookup, List.lookup]
      have h1 : (k2 == k) = false := beq_eq_false_iff_ne.mpr h
      have h2 : (k2 == kv.1) = false := by rw [hk]; exact h1
      rw [h1, h2]
      exact ih
    · simp only [List.map_cons, if_neg hk]
      rw [List.lookup, List.lookup]
      cases hbeq : k2 == kv.1 with
      | true => rfl
      | false => exact ih

theorem lookup_dictSet_ne (d : Envelope) {k k2 : String} (v : PyVal) (h : k2 ≠ k) :
    (dictSet d k v).lookup k2 = d.lookup k2 := by
  rw [dictSet]
  split
  · exact lookup_append_ne d v h
  · exact lookup_map_ne d v h

theorem insertSorted_perm (le : α → α → Bool) (x : α) :
    ∀ l : List α, (insertSorted le x l).Perm (x :: l) := by
  intro l
  induction l with
  | nil => exact List.Perm.refl _
  | cons y ys ih =>
    rw [insertSorted]
    split
    · exact List.Perm.refl _
    · exact (ih.cons y).trans (List.Perm.swap x y ys)

theorem pySorted_perm (le : α → α → Bool) : ∀ l : List α, (pySorted le l).Perm l := by
  intro l
  induction l with
  | nil => exact List.Perm.refl _
  | cons x xs ih => exact (insertSorted_perm le x _).trans (ih.cons x)

theorem insertSorted_pairwise (le : α → α → Bool)
    (total : ∀ a b, le a b || le b a) (htrans : ∀ a b c, le a b → le b c → le a c)
    (x : α) : ∀ {l : List α}, l.Pairwise (fun a b => le a b = true) →
    (insertSorted le x l).Pairwise (fun a b => le a b = true) := by
  intro l
  induction l with
  | nil => intro _; simp [insertSorted]
  | cons y ys ih =>
    intro hp
    rcases List.pairwise_cons.mp hp with ⟨hy, hys⟩
    rw [insertSorted]
    split
    · rename_i hxy
      refine List.pairwise_cons.mpr ⟨?_, hp⟩
      intro z hz
      rcases List.mem_cons.mp hz with rfl | hz2
      · exact hxy
      · exact htrans x y z hxy (hy z hz2)
    · rename_i hxy
      have hyx : le y x = true := by
        have h2 := total x y
        rw [Bool.or_eq_true] at h2
        rcases h2 with h3 | h3
        · exact absurd h3 hxy
        · exact h3
      refine List.pairwise_cons.mpr ⟨?_, ih hys⟩
      intro z hz
      have hz2 : z ∈ x :: ys := (insertSorted_perm le x ys).mem_iff.mp hz
      rcases List.mem_cons.mp hz2 with rfl | hz3
      · exact hyx
      · exact hy z hz3

theorem pySorted_pairwise (le : α → α → Bool)
    (total : ∀ a b, le a b || le b a) (htrans : ∀ a b c, le a b → le b c → le a c) :
    ∀ l : List α, (pySorted le l).Pairwise (fun a b => le a b = true) := by
  intro l
  induction l with
  | nil => simp [pySorted]
  | cons x xs ih => exact insertSorted_pairwise le total htrans x ih

theorem charListLe_total : ∀ as bs : List Char, charListLe as bs || charListLe bs as := by
  intro as
  induction as with
  | nil => intro bs; simp [charListLe]
  | cons a as2 ih =>
    intro bs
    cases bs with
    | nil => simp [charListLe]
    | cons b bs2 =>
      by_cases h1 : a < b
      · have h2 : ¬ b < a := lt_asymm h1
        simp [charListLe, h1, h2]
      · by_cases h2 : b < a
        · simp [charListLe, h1, h2]
        · simpa [charListLe, h1, h2] using ih bs2

theorem charListLe_trans : ∀ as bs cs : List Char,
    charListLe as bs = true → charListLe bs cs = true → charListLe as cs = true := by
  intro as
  induction as with
  | nil => intro bs cs _ _; simp [charListLe]
  | cons a as2 ih =>
    intro bs cs h1 h2
    cases bs with
    | nil => simp [charListLe] at h1
    | cons b bs2 =>
      cases cs with
      | nil => simp [charListLe] at h2
      | cons c cs2 =>
        by_cases hab : a < b
        · by_cases hbc : b < c
          · simp [charListLe, lt_trans hab hbc]
          · by_cases hcb : c < b
            · simp [charListLe, hbc, hcb] at h2
            · have hbec : b = c := le_antisymm (not_lt.mp hcb) (not_lt.mp hbc)
              subst hbec
              simp [charListLe, hab]
        · by_cases hba : b < a
          · simp [charListLe, hab, hba] at h1
          · have haeb : a = b := le_antisymm (not_lt.mp hba) (not_lt.mp hab)
            subst haeb
            by_cases hac : a < c
            · simp [charListLe, hac]
            · by_cases hca : c < a
              · simp [charListLe, hac, hca] at h2
              · simp only [charListLe, if_neg hac, if_neg hca]
                simp only [charListLe, if_neg hab, if_neg hba] at h1
                simp only [charListLe, if_neg hac, if_neg hca] at h2
                exact ih bs2 cs2 h1 h2

theorem pyStrLe_total : ∀ a b : String, pyStrLe a b || pyStrLe b a := by
  intro a b
  exact charListLe_total a.data b.data

theorem pyStrLe_trans : ∀ a b c : String,
    pyStrLe a b = true → pyStrLe b c = true → pyStrLe a c = true := by
  intro a b c h1 h2
  exact charListLe_trans a.data b.data c.data h1 h2

theorem charListLe_not_lt : ∀ {as bs : List Char}, charListLe as bs = true →
    ¬ bs < as := by
  intro as
  induction as with
  | nil =>
    intro bs _ hlt
    cases hlt
  | cons a as2 ih =>
    intro bs h hlt
    cases bs with
    | nil => simp [charListLe] at h
    | cons b bs2 =>
      cases hlt with
      | cons hrec =>
        simp only [charListLe, if_neg (lt_irrefl a)] at h
        exact ih h hrec
      | rel hba =>
        by_cases hab : a < b
        · exact lt_asymm hab hba
        · simp [charListLe, hab, hba] at h

theorem pyStrLe_le {a b : String} (h : pyStrLe a b = true) : a ≤ b := by
  intro hlt
  exact charListLe_not_lt h (String.lt_iff_toList_lt.mp hlt)


theorem except_bind_ok {ε α β : Type} {x : Except ε α} {f : α → Except ε β} {b : β}
    (h : (x >>= f) = .ok b) : ∃ a, x = .ok a ∧ f a = .ok b := by
  cases x with
  | error e => simp [Bind.bind, Except.bind] at h
  | ok a => exact ⟨a, rfl, by simpa [Bind.bind, Except.bind] using h⟩

/-! ## C1 — canonical form and fingerprint -/

/-- C1 (counterexample): the claim reads the `"none"` sentinel as substituted
exactly for an EMPTY dependencies sequence, but `','.join(deps) or 'none'`
also substitutes it for the singleton sequence containing the empty
specifier (reachable via `from_options(dependencies=[""])`): there the code
renders `deps=none` while the claimed canonical form renders `deps=`. -/
theorem C1_canonical_counterexample :
    CapabilityProfile.from_kwargs Option.none Option.none 1000 128 (Option.some [""]) =
      .ok ⟨[], .nonePolicy, 1000, 128, [""]⟩ ∧
    CapabilityProfile.canonical_repr ⟨[], .nonePolicy, 1000, 128, [""]⟩ =
      "cpu_ms=1000;deps=none;fs=none;mem_mb=128;net=none" ∧
    canonicalClaimC1 ⟨[], .nonePolicy, 1000, 128, [""]⟩ =
      "cpu_ms=1000;deps=;fs=none;mem_mb=128;net=none" ∧
    CapabilityProfile.canonical_repr ⟨[], .nonePolicy, 1000, 128, [""]⟩ ≠
      canonicalClaimC1 ⟨[], .nonePolicy, 1000, 128, [""]⟩ :=
  ⟨by decide, by decide, by decide, by decide⟩

/-- C1 (amended): for every capability profile, `canonical_repr` is the
`';'`-joined five fields in the fixed order `cpu_ms;deps;fs;mem_mb;net`,
with the `"none"` sentinel substituted whenever the comma-join of the
sequence is empty (for mounts exactly the empty sequence; for dependencies
also `[""]`), and the fingerprint is exactly the first 16 hex characters of
the SHA-256 digest of the UTF-8 encoding of that canonical form. -/
theorem C1_canonical_fingerprint_amended (p : CapabilityProfile) :
    p.canonical_repr = canonicalAmendedC1 p ∧
    ProfileHasher.hash p = fingerprintAmendedC1 p := by
  have h : p.canonical_repr = canonicalAmendedC1 p := by
    refine String.ext ?_
    simp [CapabilityProfile.canonical_repr, canonicalAmendedC1, pyJoin, pyOrStr,
      String.data_append]
  refine ⟨h, ?_⟩
  rw [ProfileHasher.hash, fingerprintAmendedC1, h]

/-! ## C6 — dependency sorting / deduplication -/

/-- C6 (counterexample): `from_options` sorts but does NOT deduplicate:
`dependencies=["a","a"]` is stored as `("a","a")`, which contains a
duplicate specifier. -/
theorem C6_dedup_counterexample :
    CapabilityProfile.from_kwargs Option.none Option.none 1000 128 (Option.some ["a", "a"]) =
      .ok ⟨[], .nonePolicy, 1000, 128, ["a", "a"]⟩ ∧
    ¬ (⟨[], .nonePolicy, 1000, 128, ["a", "a"]⟩ : CapabilityProfile).dependencies.Nodup :=
  ⟨by decide, by decide⟩

/-- C6 (amended): for every input dependency list, the profile built by
`from_options` stores the dependencies lexicographically sorted, as a
permutation of the input (duplicates preserved, not deduplicated). -/
theorem C6_deps_sorted_amended (fs : Option FsArg) (net : Option String)
    (cpu mem : Int) (deps : List String) (p : CapabilityProfile)
    (h : CapabilityProfile.from_kwargs fs net cpu mem (Option.some deps) = .ok p) :
    p.dependencies.Pairwise (· ≤ ·) ∧ p.dependencies.Perm deps := by
  have hdep : p.dependencies = pySorted pyStrLe deps := by
    unfold CapabilityProfile.from_kwargs at h
    split at h
    · simp at h
    · split at h
      · simp at h
      · rw [CapabilityProfile.mk'] at h
        split at h
        · simp at h
        · split at h
          · simp at h
          · simp only [Except.ok.injEq] at h
            rw [← h]
  rw [hdep]
  constructor
  · exact (pySorted_pairwise pyStrLe pyStrLe_total pyStrLe_trans deps).imp
      (fun h2 => pyStrLe_le h2)
  · exact pySorted_perm pyStrLe deps

/-- Witness for C6 (amended) at `dependencies=["b","a"]`. -/
theorem C6_deps_sorted_amended_witness :
    (⟨[], .nonePolicy, 1000, 128, ["a", "b"]⟩ : CapabilityProfile).dependencies.Pairwise
      (· ≤ ·) ∧
    (⟨[], .nonePolicy, 1000, 128, ["a", "b"]⟩ : CapabilityProfile).dependencies.Perm
      ["b", "a"] :=
  C6_deps_sorted_amended Option.none Option.none 1000 128 ["b", "a"]
    ⟨[], .nonePolicy, 1000, 128, ["a", "b"]⟩ (by decide)

/-! ## C5 — the `"none"` mount spec -/

/-- C5 (counterexample): `FSMount.parse("none")` does NOT yield an empty
mount sequence — it yields the single mount `(path="", access=NONE)`, and
`from_options(fs="none")` stores exactly that mount, so `fs_mounts` is
non-empty. -/
theorem C5_none_mount_counterexample :
    FSMount.parse "none" = .ok ⟨"", .noneAccess⟩ ∧
    CapabilityProfile.from_kwargs (Option.some (.one "none")) Option.none 1000 128
      Option.none = .ok ⟨[⟨"", .noneAccess⟩], .nonePolicy, 1000, 128, []⟩ ∧
    ([⟨"", .noneAccess⟩] : List FSMount) ≠ [] :=
  ⟨by decide, by decide, by decide⟩

/-- C5 (amended): parsing `"none"` yields the single `(path="",
access=NONE)` mount, which `from_options(fs="none")` stores (so `fs_mounts`
is that one-element sequence, not the empty one); every successful parse of
a spec other than `"none"` has the form `<r|w|rw>:<path>`, and any spec that
is neither `"none"` nor of that form fails with the profile-validation
error (`ValueError`). -/
theorem C5_mount_parse_amended :
    (FSMount.parse "none" = .ok ⟨"", .noneAccess⟩) ∧
    (∀ (cpu mem : Int) (deps : Option (List String)) (p : CapabilityProfile),
      CapabilityProfile.from_kwargs (Option.some (.one "none")) Option.none cpu mem deps =
        .ok p → p.fs_mounts = [⟨"", .noneAccess⟩]) ∧
    (∀ (spec : String) (m : FSMount), FSMount.parse spec = .ok m → spec ≠ "none" →
      ∃ a : String, (a = "r" ∨ a = "w" ∨ a = "rw") ∧
        spec.data = a.data ++ ':' :: m.path.data) ∧
    (∀ spec : String, spec ≠ "none" →
      (¬ ∃ (a : String) (rest : List Char), (a = "r" ∨ a = "w" ∨ a = "rw") ∧
        spec.data = a.data ++ ':' :: rest) →
      ∃ e : PyErr, FSMount.parse spec = .error e ∧ e.ty = "ValueError") := by
  have hform : ∀ (spec : String) (m : FSMount), FSMount.parse spec = .ok m →
      spec ≠ "none" → ∃ a : String, (a = "r" ∨ a = "w" ∨ a = "rw") ∧
        spec.data = a.data ++ ':' :: m.path.data := by
    intro spec m h hne
    rw [FSMount.parse, if_neg hne] at h
    cases hs : splitOnce ':' spec.data with
    | none =>
      simp only [hs] at h
      exact Except.noConfusion h
    | some pr =>
      obtain ⟨ac, pc⟩ := pr
      simp only [hs] at h
      cases hacc : FileSystemAccess.ofShort (String.mk ac) with
      | none =>
        simp only [hacc] at h
        exact Except.noConfusion h
      | some acc =>
        simp only [hacc, Except.ok.injEq] at h
        obtain ⟨heq, hni⟩ := splitOnce_eq_some (l := spec.data) (a := ac) (b := pc) hs
        refine ⟨String.mk ac, ?_, ?_⟩
        · rw [FileSystemAccess.ofShort] at hacc
          by_cases h1 : String.mk ac = "r"
          · exact Or.inl h1
          · by_cases h2 : String.mk ac = "w"
            · exact Or.inr (Or.inl h2)
            · by_cases h3 : String.mk ac = "rw"
              · exact Or.inr (Or.inr h3)
              · rw [if_neg h1, if_neg h2, if_neg h3] at hacc; simp at hacc
        · rw [← h]
          exact heq
  have hfromk : ∀ (cpu mem : Int) (deps : Option (List String)) (p : CapabilityProfile),
      CapabilityProfile.from_kwargs (Option.some (.one "none")) Option.none cpu mem deps =
        .ok p → p.fs_mounts = [⟨"", .noneAccess⟩] := by
    intro cpu mem deps p h
    unfold CapabilityProfile.from_kwargs at h
    have hval : ((FSMount.parse "none").map fun m => ([m] : List FSMount)) =
        Except.ok [⟨"", FileSystemAccess.noneAccess⟩] := by decide
    simp only [hval] at h
    rw [CapabilityProfile.mk'] at h
    split at h
    · simp at h
    · split at h
      · simp at h
      · simp only [Except.ok.injEq] at h
        rw [← h]
        rfl
  refine ⟨by decide, hfromk, hform, ?_⟩
  intro spec hne hnf
  cases hp : FSMount.parse spec with
  | ok m =>
    exfalso
    obtain ⟨a, ha, hd⟩ := hform spec m hp hne
    exact hnf ⟨a, m.path.data, ha, hd⟩
  | error e =>
    refine ⟨e, rfl, ?_⟩
    rw [FSMount.parse, if_neg hne] at hp
    cases hs : splitOnce ':' spec.data with
    | none =>
      simp only [hs, Except.error.injEq] at hp
      rw [← hp]
    | some pr =>
      obtain ⟨ac, pc⟩ := pr
      simp only [hs] at hp
      cases hacc : FileSystemAccess.ofShort (String.mk ac) with
      | none =>
        simp only [hacc, Except.error.injEq] at hp
        rw [← hp]
      | some acc =>
        simp only [hacc] at hp
        exact Except.noConfusion hp

/-- Witness for C5 (amended): `from_options(fs="none")` at concrete limits,
the form of the successful parse `"rw:/data"`, and the failure of `"zz"`. -/
theorem C5_mount_parse_amended_witness :
    (⟨[⟨"", .noneAccess⟩], .nonePolicy, 1000, 128, []⟩ : CapabilityProfile).fs_mounts =
      [⟨"", .noneAccess⟩] ∧
    (∃ a : String, (a = "r" ∨ a = "w" ∨ a = "rw") ∧
      ("rw:/data" : String).data = a.data ++ ':' ::
        ((⟨"/data", .readWrite⟩ : FSMount)).path.data) ∧
    (∃ e : PyErr, FSMount.parse "zz" = .error e ∧ e.ty = "ValueError") := by
  obtain ⟨h1, h2, h3, h4⟩ := C5_mount_parse_amended
  refine ⟨h2 1000 128 Option.none ⟨[⟨"", .noneAccess⟩], .nonePolicy, 1000, 128, []⟩
    (by decide), h3 "rw:/data" ⟨"/data", .readWrite⟩ (by decide) (by decide), ?_⟩
  refine h4 "zz" (by decide) ?_
  rintro ⟨a, rest, (rfl | rfl | rfl), hd⟩
  · have hz : ("zz" : String).data = 'z' :: 'z' :: [] := rfl
    have hr : ("r" : String).data = 'r' :: [] := rfl
    rw [hz, hr] at hd
    simp at hd
  · have hz : ("zz" : String).data = 'z' :: 'z' :: [] := rfl
    have hw : ("w" : String).data = 'w' :: [] := rfl
    rw [hz, hw] at hd
    simp at hd
  · have hz : ("zz" : String).data = 'z' :: 'z' :: [] := rfl
    have hrw : ("rw" : String).data = 'r' :: 'w' :: [] := rfl
    rw [hz, hrw] at hd
    simp at hd

/-! ## C7 — function reference resolution -/

/-- C7 (counterexample): the guest splits a function reference at the
RIGHTMOST colon (`rsplit(":", 1)`), not the leftmost: for `"a:b:c"` the code
resolves module `"a:b"` and attribute `"c"` (and succeeds against a module
table containing `"a:b"`), while the claimed leftmost split would give
module `"a"` and attribute path `"b:c"`. -/
theorem C7_leftmost_colon_counterexample :
    rsplitOnce ':' ("a:b:c" : String).data =
      (("a:b" : String).data, ("c" : String).data) ∧
    lsplitClaim ':' ("a:b:c" : String).data =
      (("a" : String).data, ("b:c" : String).data) ∧
    rsplitOnce ':' ("a:b:c" : String).data ≠ lsplitClaim ':' ("a:b:c" : String).data ∧
    import_function
      ⟨[("a:b", Obj.mk [("c", Obj.mk [] true)] false)], fun _ _ _ _ => .ok .null⟩
      (.str "a:b:c") = .ok (Obj.mk [] true) :=
  ⟨by decide, by decide, by decide, rfl⟩

/-- C7 (amended): the guest resolves a function reference by splitting at
the RIGHTMOST colon: for every reference containing a colon the module path
is the text before the last colon and the dotted attribute path the text
after it; a reference without a colon fails with `ValueError`, and when the
resolved object is not callable the import fails with `TypeError`. -/
theorem C7_import_function_amended :
    (∀ s : String, ':' ∈ s.data →
      s.data = (rsplitOnce ':' s.data).1 ++ ':' :: (rsplitOnce ':' s.data).2 ∧
      ':' ∉ (rsplitOnce ':' s.data).2) ∧
    (∀ (genv : GuestEnv) (s : String), ':' ∉ s.data →
      import_function genv (.str s) =
        .error ⟨"ValueError", "Invalid function reference: " ++ s, ""⟩) ∧
    (∀ (genv : GuestEnv) (s : String) (o : Obj), resolveRef genv s = .ok o →
      o.callable = false →
      import_function genv (.str s) = .error ⟨"TypeError", s ++ " is not callable", ""⟩) ∧
    (∀ (genv : GuestEnv) (s : String) (o : Obj), resolveRef genv s = .ok o →
      o.callable = true → import_function genv (.str s) = .ok o) := by
  refine ⟨fun s h => rsplitOnce_spec h, ?_, ?_, ?_⟩
  · intro genv s h
    simp only [import_function, resolveRef]
    rw [if_pos (decide_eq_false h)]
  · intro genv s o hres hc
    simp only [import_function, hres, hc]
    simp
  · intro genv s o hres hc
    simp only [import_function, hres, hc]
    simp

/-! ## C9 — installer failure message -/

set_option maxRecDepth 100000 in
/-- C9 (counterexample): on a non-zero installer exit the code surfaces the
FIRST at most 500 characters of the captured output
(`error_output[:500]`), not the tail: for stderr `"a"*500 ++ "b"` the error
message is the prefix plus 500 `'a'`s, and the claimed tail (the last 500
characters, which end in `'b'`) does not occur in the message at all. -/
theorem C9_tail_counterexample :
    errMessage (resultEnvelope (install_dependencies
        ⟨Option.some (.completed 1 "" (String.mk (List.replicate 500 'a' ++ ['b']))),
          .completed 0 "" ""⟩ (.list [.str "numpy"]))) =
      Option.some (.str (String.mk
        (("Failed to install dependencies: " : String).data ++ List.replicate 500 'a'))) ∧
    ¬ occursIn (lastChars 500 (String.mk (List.replicate 500 'a' ++ ['b'])))
      (("Failed to install dependencies: " : String).data ++ List.replicate 500 'a') := by
  constructor
  · rfl
  · rintro ⟨x, y, hxy⟩
    have hb1 : 'b' ∈ lastChars 500 (String.mk (List.replicate 500 'a' ++ ['b'])) := by
      decide
    have hb2 : 'b' ∉ (("Failed to install dependencies: " : String).data ++
        List.replicate 500 'a') := by decide
    rw [hxy] at hb2
    exact hb2 (List.mem_append.mpr (Or.inl (List.mem_append.mpr (Or.inr hb1))))

/-- C9 (amended): when the installer exits with non-zero status (after a
non-empty, validated dependency list), the failure envelope's error message
is the fixed prefix followed by the FIRST at most 500 characters of
`stderr or stdout`, and that 500-character head occurs in the message (as
its suffix). -/
theorem C9_install_error_head_amended (env : InstallEnv) (l : List PyVal)
    (rc : Int) (out err : String)
    (hrun : env.effectiveRun = .completed rc out err) (hrc : rc ≠ 0)
    (hne : l ≠ []) (hok : ∀ d ∈ l, d.truthy = true ∧ d.isStr = true) :
    install_dependencies env (.list l) = .ok
      [("success", .bool false), ("result", .null),
       ("error", .dict [("type", .str "InstallError"),
         ("message", .str ("Failed to install dependencies: " ++
           pySlice (pyOrStr err out) 500)),
         ("traceback", .str (pyOrStr err out))])] ∧
    errMessage (resultEnvelope (install_dependencies env (.list l))) =
      Option.some (.str ("Failed to install dependencies: " ++
        pySlice (pyOrStr err out) 500)) ∧
    occursIn (pySlice (pyOrStr err out) 500).data
      ("Failed to install dependencies: " ++ pySlice (pyOrStr err out) 500).data := by
  have ht : PyVal.truthy (.list l) = true := by
    cases l with
    | nil => exact absurd rfl hne
    | cons a as => rfl
  have hfind : l.find? (fun d => !d.truthy || !d.isStr) = Option.none := by
    rw [List.find?_eq_none]
    intro x hx
    rcases hok x hx with ⟨h1, h2⟩
    simp [h1, h2]
  have hmain : install_dependencies env (.list l) = .ok
      [("success", .bool false), ("result", .null),
       ("error", .dict [("type", .str "InstallError"),
         ("message", .str ("Failed to install dependencies: " ++
           pySlice (pyOrStr err out) 500)),
         ("traceback", .str (pyOrStr err out))])] := by
    rw [install_dependencies, ht]
    simp only [Bool.true_eq_false, if_false]
    simp only [PyVal.iterate, hfind, hrun]
    rw [if_pos hrc]
  refine ⟨hmain, ?_, ?_⟩
  · rw [hmain]
    rfl
  · refine ⟨("Failed to install dependencies: " : String).data, [], ?_⟩
    simp [String.data_append]

/-- Witness for C9 (amended) with `stderr=""`, `stdout="boom"`,
exit status 1. -/
theorem C9_install_error_head_amended_witness :
    install_dependencies ⟨Option.some (.completed 1 "boom" ""), .completed 0 "" ""⟩
      (.list [.str "x"]) = .ok
      [("success", .bool false), ("result", .null),
       ("error", .dict [("type", .str "InstallError"),
         ("message", .str ("Failed to install dependencies: " ++
           pySlice (pyOrStr "" "boom") 500)),
         ("traceback", .str (pyOrStr "" "boom"))])] ∧
    errMessage (resultEnvelope (install_dependencies
        ⟨Option.some (.completed 1 "boom" ""), .completed 0 "" ""⟩
        (.list [.str "x"]))) =
      Option.some (.str ("Failed to install dependencies: " ++
        pySlice (pyOrStr "" "boom") 500)) ∧
    occursIn (pySlice (pyOrStr "" "boom") 500).data
      ("Failed to install dependencies: " ++ pySlice (pyOrStr "" "boom") 500).data :=
  C9_install_error_head_amended ⟨Option.some (.completed 1 "boom" ""), .completed 0 "" ""⟩
    [.str "x"] 1 "boom" "" rfl (by decide) (List.cons_ne_nil _ _)
    (by
      intro d hd
      simp only [List.mem_singleton] at hd
      subst hd
      exact ⟨rfl, rfl⟩)

/-! ## C4 — request id echo -/

/-- C4: for every request processed by the guest executor — including
install-command requests — when the handler returns a response, the
response's `request_id` equals the request's `request_id`. -/
theorem C4_request_id_echo (genv : GuestEnv) (ienv : InstallEnv) (req : Envelope)
    (v : PyVal) (res : Envelope) (hid : req.lookup "request_id" = Option.some v)
    (h : handle_request genv ienv req = .ok res) :
    res.lookup "request_id" = Option.some v := by
  have hget : dictGetD req "request_id" (.str "unknown") = v := by
    rw [dictGetD, hid]
    rfl
  simp only [handle_request, hget] at h
  split at h
  · cases hi : install_dependencies ienv (dictGetD req "dependencies" (.list [])) with
    | error e =>
      rw [hi] at h
      exact Except.noConfusion h
    | ok r =>
      simp only [hi, Except.ok.injEq] at h
      rw [← h]
      exact lookup_dictSet r "request_id" v
  · cases ha : (dictGetD req "args" (.list [])).iterate with
    | error e =>
      rw [ha] at h
      exact Except.noConfusion h
    | ok args =>
      simp only [ha] at h
      cases he : execute_function genv (dictGetD req "function_ref" (.str "")) args
          (dictGetD req "kwargs" (.dict [])) (dictGetD req "timeout_ms" (.int 0)) with
      | error e =>
        rw [he] at h
        exact Except.noConfusion h
      | ok r =>
        simp only [he, Except.ok.injEq] at h
        rw [← h]
        exact lookup_dictSet _ "request_id" v

/-- Witness for C4 at a concrete request carrying `request_id = "abc"` (the
empty function reference fails inside the executor, which still returns a
response envelope). -/
theorem C4_request_id_echo_witness :
    List.lookup "request_id"
      [("success", PyVal.bool false), ("result", PyVal.null),
       ("error", PyVal.dict [("type", PyVal.str "ValueError"),
         ("message", PyVal.str "Invalid function reference: "),
         ("traceback", PyVal.str "")]),
       ("request_id", PyVal.str "abc")] = Option.some (PyVal.str "abc") :=
  C4_request_id_echo ⟨[], fun _ _ _ _ => .ok .null⟩
    ⟨Option.some (.completed 0 "" ""), .completed 0 "" ""⟩
    [("request_id", .str "abc")] (.str "abc") _ rfl rfl

/-! ## C10 — totality of the request handler -/

theorem iterate_of_iterable {v : PyVal} (h : v.iterable = true) :
    ∃ l, v.iterate = .ok l := by
  cases v with
  | list xs => exact ⟨xs, rfl⟩
  | str s => exact ⟨_, rfl⟩
  | dict xs => exact ⟨_, rfl⟩
  | null => simp [PyVal.iterable] at h
  | bool b => simp [PyVal.iterable] at h
  | int n => simp [PyVal.iterable] at h

theorem execute_function_success_key (genv : GuestEnv) (fr : PyVal)
    (args : List PyVal) (kwargs timeout_ms : PyVal)
    (hnb : ∀ f a k b e, genv.call f a k b ≠ .baseExn e) :
    ∃ E b, execute_function genv fr args kwargs timeout_ms = .ok E ∧
      E.lookup "success" = Option.some (.bool b) := by
  cases himp : import_function genv fr with
  | error e =>
    have hE : execute_function genv fr args kwargs timeout_ms =
        .ok (failEnvelope e) := by
      rw [execute_function]
      simp only [himp]
    exact ⟨_, false, hE, rfl⟩
  | ok f =>
    cases hz : pyGtZero timeout_ms with
    | error e =>
      have hE : execute_function genv fr args kwargs timeout_ms =
          .ok (failEnvelope e) := by
        rw [execute_function]
        simp only [himp, hz]
      exact ⟨_, false, hE, rfl⟩
    | ok armed =>
      cases hcall : genv.call f args kwargs armed with
      | ok v =>
        have hE : execute_function genv fr args kwargs timeout_ms =
            .ok [("success", .bool true), ("result", v), ("error", .null)] := by
          rw [execute_function]
          simp only [himp, hz, hcall]
        exact ⟨_, true, hE, rfl⟩
      | exn e =>
        have hE : execute_function genv fr args kwargs timeout_ms =
            .ok (failEnvelope e) := by
          rw [execute_function]
          simp only [himp, hz, hcall]
        exact ⟨_, false, hE, rfl⟩
      | baseExn e => exact absurd hcall (hnb f args kwargs armed e)

theorem install_dependencies_success_key (ienv : InstallEnv) (deps : PyVal)
    (hit : deps.truthy = true → deps.iterable = true) :
    ∃ E b, install_dependencies ienv deps = .ok E ∧
      E.lookup "success" = Option.some (.bool b) := by
  by_cases ht : deps.truthy = false
  · rw [install_dependencies, if_pos ht]
    exact ⟨_, true, rfl, rfl⟩
  · have h2 : deps.iterable = true := by
      apply hit
      revert ht
      cases deps.truthy with
      | true => intro _; rfl
      | false => intro hf; exact absurd rfl hf
    obtain ⟨l, hl⟩ := iterate_of_iterable h2
    rw [install_dependencies, if_neg ht]
    cases hf : l.find? (fun d => !d.truthy || !d.isStr) with
    | some bad =>
      simp only [hl, hf]
      exact ⟨_, false, rfl, rfl⟩
    | none =>
      cases hrun : ienv.effectiveRun with
      | completed rc out err =>
        by_cases hrc : rc ≠ 0
        · simp only [hl, hf, hrun]
          rw [if_pos hrc]
          exact ⟨_, false, rfl, rfl⟩
        · simp only [hl, hf, hrun]
          rw [if_neg hrc]
          exact ⟨_, true, rfl, rfl⟩
      | timedOut =>
        simp only [hl, hf, hrun]
        exact ⟨_, false, rfl, rfl⟩
      | raised e =>
        simp only [hl, hf, hrun]
        exact ⟨_, false, rfl, rfl⟩

theorem execute_function_call_at_false (m1 : List (String × Obj))
    (c1 c2 : Obj → List PyVal → PyVal → Bool → CallResult)
    (hc : ∀ f a k, c1 f a k false = c2 f a k false)
    (fr : PyVal) (args : List PyVal) (kwargs : PyVal) :
    execute_function ⟨m1, c1⟩ fr args kwargs (.int 0) =
      execute_function ⟨m1, c2⟩ fr args kwargs (.int 0) := by
  have himp : import_function ⟨m1, c1⟩ fr = import_function ⟨m1, c2⟩ fr := by
    cases fr <;> rfl
  rw [execute_function, execute_function, ← himp]
  cases hi : import_function ⟨m1, c1⟩ fr with
  | error e => simp only [hi]
  | ok f =>
    have hz : pyGtZero (.int 0) = .ok false := rfl
    simp only [hi, hz, hc f args kwargs]

/-- C10 (counterexample): `handle_request` is NOT total on request
dictionaries.  First, `tuple(request_data.get("args", []))` raises
`TypeError` for a non-iterable `args` value such as the integer 7, and the
exception escapes `handle_request`.  Second, even with iterable `args`, a
`BaseException` outside `Exception` raised by the invoked function — here
`SystemExit` from the ordinary request `function_ref = "sys:exit"` — is not
caught by `execute_function`'s `except Exception` clause and escapes
`handle_request` as well. -/
theorem C10_totality_counterexample :
    handle_request ⟨[], fun _ _ _ _ => .ok .null⟩
      ⟨Option.some (.completed 0 "" ""), .completed 0 "" ""⟩
      [("args", .int 7)] =
      .error ⟨"TypeError", "int object is not iterable", ""⟩ ∧
    handle_request
      ⟨[("sys", Obj.mk [("exit", Obj.mk [] true)] false)],
       fun _ _ _ _ => .baseExn ⟨"SystemExit", "0", ""⟩⟩
      ⟨Option.some (.completed 0 "" ""), .completed 0 "" ""⟩
      [("function_ref", .str "sys:exit"), ("args", .list [])] =
      .error ⟨"SystemExit", "0", ""⟩ := ⟨rfl, rfl⟩

/-- C10 (amended): `handle_request` returns a response dictionary carrying a
`success` flag and a `request_id` — and never raises — for every request
dictionary whose `args` value is iterable (and, for install requests, whose
truthy `dependencies` value is iterable), PROVIDED the invoked function
raises no `BaseException` outside `Exception`: `execute_function` catches
only `Exception`, so such a `BaseException` (e.g. `SystemExit`) signalled by
the call escapes the handler even with iterable `args`.  A missing
`request_id` defaults to the string `"unknown"`, and a missing `timeout_ms`
defaults to `0`, in which case the guest-side timer is never armed (the
handler's result does not depend on the call oracle's behaviour with an
armed timer). -/
theorem C10_handle_request_amended (genv : GuestEnv) (ienv : InstallEnv)
    (req : Envelope) :
    (isInstallRequest req = true →
      ((dictGetD req "dependencies" (.list [])).truthy = true →
       (dictGetD req "dependencies" (.list [])).iterable = true) →
      ∃ res b, handle_request genv ienv req = .ok res ∧
        res.lookup "success" = Option.some (.bool b) ∧
        res.lookup "request_id" =
          Option.some (dictGetD req "request_id" (.str "unknown"))) ∧
    (isInstallRequest req = false →
      (dictGetD req "args" (.list [])).iterable = true →
      (∀ f a k c e, genv.call f a k c ≠ .baseExn e) →
      ∃ res b, handle_request genv ienv req = .ok res ∧
        res.lookup "success" = Option.some (.bool b) ∧
        res.lookup "request_id" =
          Option.some (dictGetD req "request_id" (.str "unknown"))) ∧
    (∀ l f e, isInstallRequest req = false →
      (dictGetD req "args" (.list [])).iterate = .ok l →
      import_function genv (dictGetD req "function_ref" (.str "")) = .ok f →
      req.lookup "timeout_ms" = Option.none →
      genv.call f l (dictGetD req "kwargs" (.dict [])) false = .baseExn e →
      handle_request genv ienv req = .error e) ∧
    (req.lookup "request_id" = Option.none →
      dictGetD req "request_id" (.str "unknown") = .str "unknown") ∧
    (∀ m1 c1 c2, (∀ f a k, c1 f a k false = c2 f a k false) →
      req.lookup "timeout_ms" = Option.none → isInstallRequest req = false →
      handle_request ⟨m1, c1⟩ ienv req = handle_request ⟨m1, c2⟩ ienv req) := by
  have hsucc_ne : ("success" : String) ≠ "request_id" := by decide
  refine ⟨?_, ?_, ?_, ?_, ?_⟩
  · intro hinst hdeps
    obtain ⟨E, b, hE, hs⟩ := install_dependencies_success_key ienv
      (dictGetD req "dependencies" (.list [])) hdeps
    simp only [handle_request, if_pos hinst, hE]
    refine ⟨_, b, rfl, ?_, ?_⟩
    · rw [lookup_dictSet_ne E _ hsucc_ne]
      exact hs
    · exact lookup_dictSet E _ _
  · intro hinst hargs hnb
    obtain ⟨l, hl⟩ := iterate_of_iterable hargs
    obtain ⟨E, b, hE, hs⟩ := execute_function_success_key genv
      (dictGetD req "function_ref" (.str "")) l
      (dictGetD req "kwargs" (.dict [])) (dictGetD req "timeout_ms" (.int 0)) hnb
    simp only [handle_request, hinst, Bool.false_eq_true, if_false, hl, hE]
    refine ⟨_, b, rfl, ?_, ?_⟩
    · rw [lookup_dictSet_ne _ _ hsucc_ne]
      exact hs
    · exact lookup_dictSet _ _ _
  · intro l f e hinst hl himp hto hcall
    have hto2 : dictGetD req "timeout_ms" (.int 0) = .int 0 := by
      rw [dictGetD, hto]
      rfl
    have hexec : execute_function genv (dictGetD req "function_ref" (.str "")) l
        (dictGetD req "kwargs" (.dict [])) (.int 0) = .error e := by
      rw [execute_function]
      have hz : pyGtZero (.int 0) = .ok false := rfl
      simp only [himp, hz, hcall]
    simp only [handle_request, hinst, Bool.false_eq_true, if_false, hl, hto2, hexec]
  · intro hnone
    rw [dictGetD, hnone]
    rfl
  · intro m1 c1 c2 hc hto hinst
    simp only [handle_request, hinst, Bool.false_eq_true, if_false]
    have hto2 : dictGetD req "timeout_ms" (.int 0) = .int 0 := by
      rw [dictGetD, hto]
      rfl
    rw [hto2]
    cases ha : (dictGetD req "args" (.list [])).iterate with
    | error e => simp only [ha]
    | ok args =>
      simp only [ha]
      rw [execute_function_call_at_false m1 c1 c2 hc]

/-- Witness for C10 (amended) at concrete requests: a non-install request
with iterable (empty) `args` and no `request_id`/`timeout_ms` under a
`BaseException`-free call oracle; the `SystemExit` escape at
`function_ref = "sys:exit"`; and two call oracles that agree when the timer
is unarmed and differ when it is armed. -/
theorem C10_handle_request_amended_witness :
    (∃ res b, handle_request ⟨[], fun _ _ _ _ => .ok .null⟩
        ⟨Option.some (.completed 0 "" ""), .completed 0 "" ""⟩
        [("args", PyVal.list [])] = .ok res ∧
      res.lookup "success" = Option.some (.bool b) ∧
      res.lookup "request_id" = Option.some (dictGetD [("args", PyVal.list [])]
        "request_id" (.str "unknown"))) ∧
    handle_request
        ⟨[("sys", Obj.mk [("exit", Obj.mk [] true)] false)],
         fun _ _ _ _ => .baseExn ⟨"SystemExit", "1", ""⟩⟩
        ⟨Option.some (.completed 0 "" ""), .completed 0 "" ""⟩
        [("function_ref", PyVal.str "sys:exit"), ("args", PyVal.list [])] =
      .error ⟨"SystemExit", "1", ""⟩ ∧
    dictGetD [("args", PyVal.list [])] "request_id" (.str "unknown") = .str "unknown" ∧
    handle_request ⟨[], fun _ _ _ _ => .ok .null⟩
        ⟨Option.some (.completed 0 "" ""), .completed 0 "" ""⟩
        [("args", PyVal.list [])] =
      handle_request ⟨[], fun _ _ _ armed => if armed then .ok (.int 5) else .ok .null⟩
        ⟨Option.some (.completed 0 "" ""), .completed 0 "" ""⟩
        [("args", PyVal.list [])] := by
  obtain ⟨h1, h2, h3, h4, h5⟩ := C10_handle_request_amended
    ⟨[], fun _ _ _ _ => .ok .null⟩
    ⟨Option.some (.completed 0 "" ""), .completed 0 "" ""⟩
    [("args", PyVal.list [])]
  obtain ⟨g1, g2, g3, g4, g5⟩ := C10_handle_request_amended
    ⟨[("sys", Obj.mk [("exit", Obj.mk [] true)] false)],
     fun _ _ _ _ => .baseExn ⟨"SystemExit", "1", ""⟩⟩
    ⟨Option.some (.completed 0 "" ""), .completed 0 "" ""⟩
    [("function_ref", PyVal.str "sys:exit"), ("args", PyVal.list [])]
  refine ⟨h2 rfl rfl (fun f a k c e h => CallResult.noConfusion h), ?_, h4 rfl, ?_⟩
  · exact g3 [] (Obj.mk [] true) ⟨"SystemExit", "1", ""⟩ rfl rfl rfl rfl rfl
  · exact h5 [] (fun _ _ _ _ => .ok .null)
      (fun _ _ _ armed => if armed then .ok (.int 5) else .ok .null)
      (fun f a k => rfl) rfl rfl

/-- Witness for C7 (amended) at concrete references and module tables. -/
theorem C7_import_function_amended_witness :
    (("a:b:c" : String).data = (rsplitOnce ':' ("a:b:c" : String).data).1 ++ ':' ::
        (rsplitOnce ':' ("a:b:c" : String).data).2 ∧
      ':' ∉ (rsplitOnce ':' ("a:b:c" : String).data).2) ∧
    import_function ⟨[], fun _ _ _ _ => .ok .null⟩ (.str "plain") =
      .error ⟨"ValueError", "Invalid function reference: " ++ "plain", ""⟩ ∧
    import_function ⟨[("m", Obj.mk [("f", Obj.mk [] false)] false)],
        fun _ _ _ _ => .ok .null⟩ (.str "m:f") =
      .error ⟨"TypeError", "m:f" ++ " is not callable", ""⟩ ∧
    import_function ⟨[("m", Obj.mk [("f", Obj.mk [] true)] false)],
        fun _ _ _ _ => .ok .null⟩ (.str "m:f") = .ok (Obj.mk [] true) := by
  obtain ⟨h1, h2, h3, h4⟩ := C7_import_function_amended
  refine ⟨h1 "a:b:c" (by decide), h2 _ "plain" (by decide), ?_, ?_⟩
  · exact h3 _ "m:f" (Obj.mk [] false) rfl rfl
  · exact h4 _ "m:f" (Obj.mk [] true) rfl rfl

/-! ## C8 — snapshot provisioning cache -/

/-- C8: `provision_snapshot` returns absent (`None`) for a profile without
dependencies; a cached key is answered from the cache (no external effect is
consulted); an install failure propagates and leaves the cache unchanged;
and a successful provisioning stores the record under `profile_key` so that
every repeat call with the same key returns the identical cached record. -/
theorem C8_provision_snapshot_cache (dir : String) (st : RunnerState)
    (profile : CapabilityProfile) (key : String) (o : ProvisionOutcome) :
    (profile.dependencies = [] →
      provision_snapshot dir st profile key o = (st, .ok Option.none)) ∧
    (∀ info, profile.dependencies ≠ [] → st.snapshots.lookup key = Option.some info →
      provision_snapshot dir st profile key o = (st, .ok (Option.some info))) ∧
    (∀ e, profile.dependencies ≠ [] → st.snapshots.lookup key = Option.none →
      o = .installErr e →
      provision_snapshot dir st profile key o = (st, .error e)) ∧
    (profile.dependencies ≠ [] → st.snapshots.lookup key = Option.none → o = .ok →
      (provision_snapshot dir st profile key o).2 = .ok (Option.some
        ⟨dir ++ "/" ++ key ++ "/snapshot", dir ++ "/" ++ key ++ "/mem", key,
         profile.dependencies⟩) ∧
      (provision_snapshot dir st profile key o).1.snapshots.lookup key = Option.some
        ⟨dir ++ "/" ++ key ++ "/snapshot", dir ++ "/" ++ key ++ "/mem", key,
         profile.dependencies⟩ ∧
      ∀ o2, provision_snapshot dir (provision_snapshot dir st profile key o).1
          profile key o2 =
        ((provision_snapshot dir st profile key o).1, .ok (Option.some
          ⟨dir ++ "/" ++ key ++ "/snapshot", dir ++ "/" ++ key ++ "/mem", key,
           profile.dependencies⟩))) := by
  refine ⟨?_, ?_, ?_, ?_⟩
  · intro h
    rw [provision_snapshot.eq_def, if_pos h]
  · intro info hne hc
    rw [provision_snapshot.eq_def, if_neg hne]
    simp only [hc]
  · intro e hne hc ho
    rw [provision_snapshot.eq_def, if_neg hne]
    simp only [hc, ho]
  · intro hne hc ho
    subst ho
    have hmain : provision_snapshot dir st profile key .ok =
        (⟨(key, ⟨dir ++ "/" ++ key ++ "/snapshot", dir ++ "/" ++ key ++ "/mem", key,
            profile.dependencies⟩) :: st.snapshots⟩,
         .ok (Option.some ⟨dir ++ "/" ++ key ++ "/snapshot",
            dir ++ "/" ++ key ++ "/mem", key, profile.dependencies⟩)) := by
      rw [provision_snapshot.eq_def, if_neg hne]
      simp only [hc]
    have hl : (List.lookup key ((key, (⟨dir ++ "/" ++ key ++ "/snapshot",
          dir ++ "/" ++ key ++ "/mem", key,
          profile.dependencies⟩ : SnapshotArtifact)) :: st.snapshots)) =
        Option.some ⟨dir ++ "/" ++ key ++ "/snapshot", dir ++ "/" ++ key ++ "/mem",
          key, profile.dependencies⟩ := by
      simp [List.lookup]
    refine ⟨by rw [hmain], ?_, ?_⟩
    · rw [hmain]
      exact hl
    · intro o2
      rw [hmain, provision_snapshot.eq_def, if_neg hne]
      simp only [hl]

/-- Witness for C8 at a concrete runner state, profile and key. -/
theorem C8_provision_snapshot_cache_witness :
    (provision_snapshot "/tmp/snaps" ⟨[]⟩ ⟨[], .nonePolicy, 1000, 128, []⟩ "k"
      .ok = (⟨[]⟩, .ok Option.none)) ∧
    (provision_snapshot "/tmp/snaps" ⟨[]⟩ ⟨[], .nonePolicy, 1000, 128, ["numpy"]⟩ "k"
      (.installErr ⟨"RuntimeError", "Failed to install dependencies: ", ""⟩) =
      (⟨[]⟩, .error ⟨"RuntimeError", "Failed to install dependencies: ", ""⟩)) ∧
    (provision_snapshot "/tmp/snaps" ⟨[]⟩ ⟨[], .nonePolicy, 1000, 128, ["numpy"]⟩ "k"
      .ok).2 = .ok (Option.some ⟨"/tmp/snaps" ++ "/" ++ "k" ++ "/snapshot",
        "/tmp/snaps" ++ "/" ++ "k" ++ "/mem", "k", ["numpy"]⟩) := by
  obtain ⟨h1, _, _, _⟩ := C8_provision_snapshot_cache "/tmp/snaps" ⟨[]⟩
    ⟨[], .nonePolicy, 1000, 128, []⟩ "k" .ok
  obtain ⟨_, _, h3, _⟩ := C8_provision_snapshot_cache "/tmp/snaps" ⟨[]⟩
    ⟨[], .nonePolicy, 1000, 128, ["numpy"]⟩ "k"
    (.installErr ⟨"RuntimeError", "Failed to install dependencies: ", ""⟩)
  obtain ⟨_, _, _, h4⟩ := C8_provision_snapshot_cache "/tmp/snaps" ⟨[]⟩
    ⟨[], .nonePolicy, 1000, 128, ["numpy"]⟩ "k" .ok
  refine ⟨h1 rfl, ?_, ?_⟩
  · exact h3 ⟨"RuntimeError", "Failed to install dependencies: ", ""⟩ (by decide) rfl rfl
  · exact (h4 (by decide) rfl rfl).1

/-! ## Pool invariant lemmas (C2, C3) -/

theorem perm_cons_to_snoc {α : Type} (x : α) (B : List α) :
    List.Perm (x :: B) (B ++ [x]) :=
  @List.perm_append_comm _ [x] B

theorem perm_snoc_mid {α : Type} (A B : List α) (x : α) :
    List.Perm (A ++ B ++ [x]) (A ++ x :: B) := by
  rw [List.append_assoc]
  exact List.Perm.append_left A (@List.perm_append_comm _ B [x])

theorem perm_erase_middle {a : Nat} {l1 l2 : List Nat} (h : a ∈ l2) :
    ((l1 ++ l2).erase a).Perm (l1 ++ l2.erase a) := by
  have h1 : l2.Perm (a :: l2.erase a) := List.perm_cons_erase h
  have h2 : (l1 ++ l2).Perm (a :: (l1 ++ l2.erase a)) := by
    have s1 : (l1 ++ l2).Perm (l1 ++ (a :: l2.erase a)) := List.Perm.append_left l1 h1
    have s2 : (l1 ++ (a :: l2.erase a)).Perm ((a :: l2.erase a) ++ l1) :=
      List.perm_append_comm
    have s3 : ((a :: l2.erase a) ++ l1) = a :: (l2.erase a ++ l1) := rfl
    have s4 : (l2.erase a ++ l1).Perm (l1 ++ l2.erase a) := List.perm_append_comm
    exact s1.trans (s2.trans (s3 ▸ (s4.cons a)))
  have h3 := h2.erase a
  rw [List.erase_cons_head] at h3
  exact h3

theorem destroyIds_perm : ∀ (ids A rest : List Nat), A.Perm (ids ++ rest) →
    (destroyIds ids A).Perm rest := by
  intro ids
  induction ids with
  | nil =>
    intro A rest h
    simpa [destroyIds] using h
  | cons i ids2 ih =>
    intro A rest h
    have h2 : (A.erase i).Perm (ids2 ++ rest) := by
      have h3 := h.erase i
      rw [List.cons_append, List.erase_cons_head] at h3
      exact h3
    exact ih (A.erase i) rest h2

theorem poolInv_init (cfg : PoolConfig) : PoolInv cfg initPool := by
  refine ⟨?_, ?_, ?_, ?_⟩ <;> simp [initPool]

theorem poolInv_startCreateOne (cfg : PoolConfig) (s : PoolState) (now : Nat)
    (hinv : PoolInv cfg s) : PoolInv cfg (startCreateOne s now) := by
  obtain ⟨hperm, hnodup, hctr, hqueue⟩ := hinv
  have hfresh : s.cid_counter + 1 ∉ s.all_vms := fun hmem =>
    Nat.not_succ_le_self s.cid_counter (hctr _ hmem)
  refine ⟨?_, ?_, ?_, ?_⟩
  · show (s.all_vms ++ [s.cid_counter + 1]).Perm
      ((s.available ++ [freshVM s now]).map VMInst.vm_id ++ s.in_use)
    rw [List.map_append, List.append_assoc]
    have h1 : (s.all_vms ++ [s.cid_counter + 1]).Perm
        ((s.available.map VMInst.vm_id ++ s.in_use) ++ [s.cid_counter + 1]) :=
      hperm.append_right _
    have h2 := perm_snoc_mid (s.available.map VMInst.vm_id) s.in_use (s.cid_counter + 1)
    exact h1.trans h2
  · show (s.all_vms ++ [s.cid_counter + 1]).Nodup
    refine List.Nodup.append hnodup (List.nodup_singleton _) ?_
    intro x hx hy
    rw [List.mem_singleton] at hy
    subst hy
    exact hfresh hx
  · intro i hi
    show i ≤ s.cid_counter + 1
    rcases List.mem_append.mp hi with h1 | h2
    · exact Nat.le_succ_of_le (hctr i h1)
    · rw [List.mem_singleton] at h2
      subst h2
      exact Nat.le_refl _
  · intro vm hvm
    rcases List.mem_append.mp hvm with h1 | h2
    · exact hqueue vm h1
    · rw [List.mem_singleton] at h2
      subst h2
      exact ⟨rfl, Nat.zero_le _⟩

theorem poolInv_acquire (cfg : PoolConfig) (s : PoolState) (now : Nat) (vm : VMInst)
    (s2 : PoolState) (h : acquire_vm cfg s now = .got vm s2) (hinv : PoolInv cfg s) :
    PoolInv cfg s2 := by
  obtain ⟨hperm, hnodup, hctr, hqueue⟩ := hinv
  cases hav : s.available with
  | cons u rest =>
    simp only [acquire_vm, hav, AcquireResult.got.injEq] at h
    obtain ⟨hu, hs2⟩ := h
    subst hs2
    subst hu
    refine ⟨?_, hnodup, hctr, ?_⟩
    · show s.all_vms.Perm (rest.map VMInst.vm_id ++ (s.in_use ++ [u.vm_id]))
      rw [hav] at hperm
      have h1 : s.all_vms.Perm
          (u.vm_id :: (rest.map VMInst.vm_id ++ s.in_use)) := hperm
      have h2 := perm_cons_to_snoc u.vm_id (rest.map VMInst.vm_id ++ s.in_use)
      have h3 := h1.trans h2
      rw [List.append_assoc] at h3
      exact h3
    · intro w hw
      apply hqueue
      rw [hav]
      exact List.mem_cons_of_mem u hw
  | nil =>
    simp only [acquire_vm, hav, acquire_timeout] at h
    split at h
    · simp only [AcquireResult.got.injEq] at h
      obtain ⟨hu, hs2⟩ := h
      subst hs2
      have hfresh : s.cid_counter + 1 ∉ s.all_vms := fun hmem =>
        Nat.not_succ_le_self s.cid_counter (hctr _ hmem)
      refine ⟨?_, ?_, ?_, ?_⟩
      · show (s.all_vms ++ [s.cid_counter + 1]).Perm
          (s.available.map VMInst.vm_id ++ (s.in_use ++ [s.cid_counter + 1]))
        rw [hav] at hperm ⊢
        simp only [List.map_nil, List.nil_append] at hperm ⊢
        exact hperm.append_right _
      · exact List.Nodup.append hnodup (List.nodup_singleton _)
          (fun x hx hy => by
            rw [List.mem_singleton] at hy
            subst hy
            exact hfresh hx)
      · intro i hi
        rcases List.mem_append.mp hi with h1 | h2
        · exact Nat.le_succ_of_le (hctr i h1)
        · rw [List.mem_singleton] at h2
          subst h2
          exact Nat.le_refl _
      · intro w hw
        exact hqueue w hw
    · exact AcquireResult.noConfusion h

theorem poolInv_release (cfg : PoolConfig) (repl : Bool) (s : PoolState) (vm : VMInst)
    (now : Nat) (hmem : vm.vm_id ∈ s.in_use) (hinv : PoolInv cfg s) :
    PoolInv cfg (release_vm cfg repl s vm now) := by
  obtain ⟨hperm, hnodup, hctr, hqueue⟩ := hinv
  rw [release_vm]
  split
  · rename_i hrec
    have hinv2 : PoolInv cfg
        { s with in_use := s.in_use.erase vm.vm_id
                 all_vms := s.all_vms.erase vm.vm_id } := by
      refine ⟨?_, List.Nodup.erase _ hnodup, ?_, hqueue⟩
      · show (s.all_vms.erase vm.vm_id).Perm
          (s.available.map VMInst.vm_id ++ s.in_use.erase vm.vm_id)
        exact (hperm.erase vm.vm_id).trans (perm_erase_middle hmem)
      · intro i hi
        exact hctr i (List.mem_of_mem_erase hi)
    rw [releaseRecycle]
    split
    · exact poolInv_startCreateOne cfg _ now hinv2
    · exact hinv2
  · rename_i hrec
    have hprops : (vm.mark_used now).tainted = false ∧
        (vm.mark_used now).call_count ≤ cfg.max_calls_per_vm := by
      rw [Bool.not_eq_true, should_recycle, Bool.or_eq_false_iff] at hrec
      refine ⟨hrec.1, ?_⟩
      have h2 := hrec.2
      rw [decide_eq_false_iff_not] at h2
      exact Nat.le_of_lt (Nat.lt_of_not_le h2)
    refine ⟨?_, hnodup, hctr, ?_⟩
    · show s.all_vms.Perm
        ((s.available ++ [vm.mark_used now]).map VMInst.vm_id ++ s.in_use.erase vm.vm_id)
      rw [List.map_append, List.append_assoc]
      have h1 : s.in_use.Perm (vm.vm_id :: s.in_use.erase vm.vm_id) :=
        List.perm_cons_erase hmem
      exact hperm.trans (List.Perm.append_left _ h1)
    · intro u hu
      rcases List.mem_append.mp hu with h1 | h2
      · exact hqueue u h1
      · rw [List.mem_singleton] at h2
        subst h2
        exact hprops

theorem maintain_fold_inv (cfg : PoolConfig) (now : Nat) :
    ∀ (l : List VMInst) (st : PoolState),
      st.all_vms.Perm (st.available.map VMInst.vm_id ++ l.map VMInst.vm_id ++
        st.in_use) →
      st.all_vms.Nodup →
      (∀ i ∈ st.all_vms, i ≤ st.cid_counter) →
      (∀ vm ∈ st.available, vm.tainted = false ∧
        vm.call_count ≤ cfg.max_calls_per_vm) →
      (∀ vm ∈ l, vm.tainted = false ∧ vm.call_count ≤ cfg.max_calls_per_vm) →
      PoolInv cfg (l.foldl (maintainStep cfg now) st) := by
  intro l
  induction l with
  | nil =>
    intro st hperm hnodup hctr hq hl
    simp only [List.foldl_nil]
    refine ⟨?_, hnodup, hctr, hq⟩
    simpa using hperm
  | cons v l2 ih =>
    intro st hperm hnodup hctr hq hl
    simp only [List.foldl_cons]
    rw [maintainStep]
    split
    · apply ih
      · show (st.all_vms.erase v.vm_id).Perm
          (st.available.map VMInst.vm_id ++ l2.map VMInst.vm_id ++ st.in_use)
        have h0 : st.available.map VMInst.vm_id ++ (v :: l2).map VMInst.vm_id ++
            st.in_use = st.available.map VMInst.vm_id ++
            (v.vm_id :: (l2.map VMInst.vm_id ++ st.in_use)) := by
          simp [List.append_assoc]
        rw [h0] at hperm
        have h1 := (hperm.erase v.vm_id).trans
          (perm_erase_middle (List.mem_cons_self v.vm_id _))
        rw [List.erase_cons_head] at h1
        rw [List.append_assoc]
        exact h1
      · exact List.Nodup.erase _ hnodup
      · intro i hi
        exact hctr i (List.mem_of_mem_erase hi)
      · exact hq
      · intro u hu
        exact hl u (List.mem_cons_of_mem v hu)
    · apply ih
      · show st.all_vms.Perm
          ((st.available ++ [v]).map VMInst.vm_id ++ l2.map VMInst.vm_id ++ st.in_use)
        have h0 : st.available.map VMInst.vm_id ++ (v :: l2).map VMInst.vm_id ++
            st.in_use = (st.available ++ [v]).map VMInst.vm_id ++
            l2.map VMInst.vm_id ++ st.in_use := by
          simp [List.append_assoc]
        rw [h0] at hperm
        exact hperm
      · exact hnodup
      · exact hctr
      · intro u hu
        rcases List.mem_append.mp hu with h1 | h2
        · exact hq u h1
        · rw [List.mem_singleton] at h2
          subst h2
          exact hl u (List.mem_cons_self u l2)
      · intro u hu
        exact hl u (List.mem_cons_of_mem v hu)

theorem poolInv_maintain (cfg : PoolConfig) (now : Nat) (s : PoolState)
    (hinv : PoolInv cfg s) : PoolInv cfg (maintain cfg now s) := by
  obtain ⟨hperm, hnodup, hctr, hqueue⟩ := hinv
  rw [maintain]
  apply maintain_fold_inv
  · show s.all_vms.Perm (List.map VMInst.vm_id [] ++
      s.available.map VMInst.vm_id ++ s.in_use)
    simpa using hperm
  · exact hnodup
  · exact hctr
  · intro vm hvm
    cases hvm
  · exact hqueue

theorem stopPool_all_nil (cfg : PoolConfig) (s : PoolState) (hinv : PoolInv cfg s) :
    (stopPool s).all_vms = [] := by
  have h1 : (destroyIds (s.available.map VMInst.vm_id) s.all_vms).Perm s.in_use :=
    destroyIds_perm _ _ _ hinv.perm
  have h2 : (destroyIds s.in_use
      (destroyIds (s.available.map VMInst.vm_id) s.all_vms)).Perm [] :=
    destroyIds_perm _ _ [] (by simpa using h1)
  exact h2.eq_nil

theorem poolInv_stop (cfg : PoolConfig) (s : PoolState) (hinv : PoolInv cfg s) :
    PoolInv cfg (stopPool s) := by
  have hnil := stopPool_all_nil cfg s hinv
  refine ⟨?_, ?_, ?_, ?_⟩
  · show (stopPool s).all_vms.Perm (List.map VMInst.vm_id [] ++ [])
    rw [hnil]
    exact List.Perm.refl _
  · show (stopPool s).all_vms.Nodup
    rw [hnil]
    exact List.nodup_nil
  · intro i hi
    rw [hnil] at hi
    cases hi
  · intro vm hvm
    cases hvm

theorem poolInv_of_reach {cfg : PoolConfig} {s : PoolState} (h : PoolReach cfg s) :
    PoolInv cfg s := by
  induction h with
  | init => exact poolInv_init cfg
  | step hr hstep ih =>
    cases hstep with
    | startCreate now => exact poolInv_startCreateOne cfg _ now ih
    | acquire now vm =>
      rename_i hg
      exact poolInv_acquire cfg _ now vm _ hg ih
    | release vm now repl hm => exact poolInv_release cfg repl _ vm now hm ih
    | maintainLoop now => exact poolInv_maintain cfg now _ ih
    | stopStep => exact poolInv_stop cfg _ ih

/-! ## C2 — taint on failure, recycle on release, queue invariant -/

/-- C2: during `execute`, a host timeout or any transport/protocol error
taints the VM before the error propagates (no response is returned); on
release — after `mark_used` has incremented `call_count` and updated
`last_used` — the VM is destroyed iff it is tainted or its call count
reached `max_calls_per_vm`, and otherwise it is pushed back onto the
available queue; hence in every reachable pool state every VM sitting in
the available queue is untainted and satisfies
`call_count ≤ max_calls_per_vm`. -/
theorem C2_taint_release_queue_invariant (cfg : PoolConfig) (s : PoolState)
    (vm : VMInst) (now : Nat) (repl : Bool) (o : ExecOutcome) :
    ((∀ r, o ≠ .ok r) → (executeOnVM vm o).1.tainted = true ∧
      (executeOnVM vm o).2 = Option.none) ∧
    (PoolReach cfg s → vm.vm_id ∈ s.in_use →
      (should_recycle cfg (vm.mark_used now) = true →
        vm.vm_id ∉ (release_vm cfg repl s vm now).all_vms ∧
        ∀ u ∈ (release_vm cfg repl s vm now).available, u.vm_id ≠ vm.vm_id) ∧
      (should_recycle cfg (vm.mark_used now) = false →
        (release_vm cfg repl s vm now).available =
          s.available ++ [vm.mark_used now] ∧
        (release_vm cfg repl s vm now).all_vms = s.all_vms)) ∧
    (PoolReach cfg s → ∀ u ∈ s.available,
      u.tainted = false ∧ u.call_count ≤ cfg.max_calls_per_vm) := by
  refine ⟨?_, ?_, ?_⟩
  · intro hno
    cases o with
    | ok r => exact absurd rfl (hno r)
    | hostTimeout => exact ⟨rfl, rfl⟩
    | failure e => exact ⟨rfl, rfl⟩
  · intro hre hmem
    have hinv := poolInv_of_reach hre
    have hdisj : ∀ u ∈ s.available, u.vm_id ≠ vm.vm_id := by
      intro u hu heq
      have hnd : (s.available.map VMInst.vm_id ++ s.in_use).Nodup :=
        hinv.perm.nodup hinv.nodup
      rw [List.nodup_append] at hnd
      exact hnd.2.2 (List.mem_map_of_mem VMInst.vm_id hu) (heq ▸ hmem)
    have hle : vm.vm_id ≤ s.cid_counter := by
      apply hinv.le_ctr
      rw [hinv.perm.mem_iff]
      exact List.mem_append.mpr (Or.inr hmem)
    constructor
    · intro hrec
      rw [release_vm, if_pos hrec, releaseRecycle]
      split
      · constructor
        · show vm.vm_id ∉ s.all_vms.erase vm.vm_id ++ [s.cid_counter + 1]
          intro hvm
          rcases List.mem_append.mp hvm with h1 | h2
          · exact ((hinv.nodup.mem_erase_iff.mp h1).1 rfl)
          · rw [List.mem_singleton] at h2
            omega
        · intro u hu
          rcases List.mem_append.mp hu with h1 | h2
          · exact hdisj u h1
          · rw [List.mem_singleton] at h2
            subst h2
            show s.cid_counter + 1 ≠ vm.vm_id
            intro hcon
            omega
      · constructor
        · show vm.vm_id ∉ s.all_vms.erase vm.vm_id
          intro hvm
          exact ((hinv.nodup.mem_erase_iff.mp hvm).1 rfl)
        · intro u hu
          exact hdisj u hu
    · intro hrec
      rw [release_vm, if_neg (by rw [hrec]; exact Bool.false_ne_true)]
      exact ⟨rfl, rfl⟩
  · intro hre
    exact (poolInv_of_reach hre).queue

/-- Witness for C2 on a reachable one-VM pool with the VM acquired: the
timed-out call taints it, the tainted release destroys it, and the queued
VM of the pre-acquisition state is clean and within the call cap. -/
theorem C2_taint_release_queue_invariant_witness :
    ((executeOnVM ⟨101, 0, 0, false⟩ .hostTimeout).1.tainted = true ∧
      (executeOnVM ⟨101, 0, 0, false⟩ .hostTimeout).2 = Option.none) ∧
    ((101 : Nat) ∉ (release_vm ⟨1, 10, 100, 300⟩ true
        ⟨[], [101], [101], 101, false⟩ ⟨101, 0, 0, true⟩ 1).all_vms ∧
      ∀ u ∈ (release_vm ⟨1, 10, 100, 300⟩ true
        ⟨[], [101], [101], 101, false⟩ ⟨101, 0, 0, true⟩ 1).available,
        u.vm_id ≠ 101) ∧
    (∀ u ∈ (⟨[⟨101, 0, 0, false⟩], [], [101], 101, false⟩ : PoolState).available,
      u.tainted = false ∧ u.call_count ≤ (100 : Nat)) := by
  have hreach1 : PoolReach ⟨1, 10, 100, 300⟩
      ⟨[⟨101, 0, 0, false⟩], [], [101], 101, false⟩ :=
    PoolReach.step PoolReach.init (PoolStep.startCreate initPool 0)
  have hreach2 : PoolReach ⟨1, 10, 100, 300⟩ ⟨[], [101], [101], 101, false⟩ :=
    PoolReach.step hreach1
      (PoolStep.acquire _ 0 ⟨101, 0, 0, false⟩ ⟨[], [101], [101], 101, false⟩
        (by decide))
  have h := C2_taint_release_queue_invariant ⟨1, 10, 100, 300⟩
    ⟨[], [101], [101], 101, false⟩ ⟨101, 0, 0, true⟩ 1 true .hostTimeout
  have h3 := C2_taint_release_queue_invariant ⟨1, 10, 100, 300⟩
    ⟨[⟨101, 0, 0, false⟩], [], [101], 101, false⟩ ⟨101, 0, 0, true⟩ 1 true
    .hostTimeout
  refine ⟨h.1 (fun r hcon => ExecOutcome.noConfusion hcon), ?_, ?_⟩
  · exact (h.2.1 hreach2 (by decide)).1 (by decide)
  · exact h3.2.2 hreach1

/-! ## C3 — shutdown -/

/-- C3 (counterexample): after `stop`, the pool indeed holds no VMs, but a
subsequent acquisition does NOT raise a `PoolClosed` error (no such guard
or error exists in the pool): on the stopped pool it times out on the empty
queue and then, since `|all| = 0 < max_size`, creates and returns a fresh
VM. -/
theorem C3_poolclosed_counterexample :
    (stopPool (startCreateOne initPool 0)).all_vms = [] ∧
    (stopPool (startCreateOne initPool 0)).shutdown = true ∧
    acquire_vm ⟨1, 10, 100, 300⟩ (stopPool (startCreateOne initPool 0)) 1 =
      .got ⟨102, 0, 1, false⟩ ⟨[], [102], [102], 102, true⟩ :=
  ⟨by decide, by decide, by decide⟩

/-- C3 (amended): after `stop` completes the pool holds no VMs
(`|all| = 0`); but subsequent operations do not fail with a `PoolClosed`
error — the code has no shutdown guard on acquisition: on the stopped pool
an acquisition waits out the empty queue and then, whenever `max_size` is
positive, creates and returns a fresh VM; only with `max_size = 0` does it
fail, and then with `VMPoolExhaustedError`. -/
theorem C3_stop_amended (cfg : PoolConfig) (s : PoolState) (now : Nat)
    (h : PoolReach cfg s) :
    (stopPool s).all_vms = [] ∧
    (0 < cfg.max_size →
      acquire_vm cfg (stopPool s) now =
        .got (freshVM (stopPool s) now)
          ⟨[], [s.cid_counter + 1], [s.cid_counter + 1], s.cid_counter + 1, true⟩) ∧
    (cfg.max_size = 0 → acquire_vm cfg (stopPool s) now = .exhausted) := by
  have hnil := stopPool_all_nil cfg s (poolInv_of_reach h)
  refine ⟨hnil, ?_, ?_⟩
  · intro hmax
    have hlen : (stopPool s).all_vms.length < cfg.max_size := by
      rw [hnil]
      simpa using hmax
    show acquire_timeout cfg (stopPool s) now = _
    rw [acquire_timeout, if_pos hlen]
    simp only [createVM, freshVM]
    rw [hnil]
    rfl
  · intro hmax
    show acquire_timeout cfg (stopPool s) now = _
    rw [acquire_timeout, if_neg (by rw [hmax]; exact Nat.not_lt_zero _)]

/-- Witness for C3 (amended) on the one-VM pool trace. -/
theorem C3_stop_amended_witness :
    (stopPool (startCreateOne initPool 0)).all_vms = [] ∧
    acquire_vm ⟨1, 10, 100, 300⟩ (stopPool (startCreateOne initPool 0)) 1 =
      .got (freshVM (stopPool (startCreateOne initPool 0)) 1)
        ⟨[], [102], [102], 102, true⟩ := by
  have h := C3_stop_amended ⟨1, 10, 100, 300⟩ (startCreateOne initPool 0) 1
    (PoolReach.step PoolReach.init (PoolStep.startCreate initPool 0))
  exact ⟨h.1, h.2.1 (by decide)⟩
